import Mathlib

/-!
# proxydj — verification of the `ProxyManager` component

A shallow embedding of the `ProxyManager` class of the proxydj repository.
The repository carries four near-duplicate historical revisions of the same
component; each revision relevant to a checked property is embedded in its
own namespace:

* `RevA` — the first revision in `src/proxy.ts`: instances carry a
  `stopping` flag, `findFreeExternalProxy` filters the eligible endpoints
  and picks `Math.round(Math.random() * (length - 1))`, throwing when the
  filtered set is empty.
* `RevB` — the second revision in `src/proxy.ts`: instances carry a
  `rotating` flag (set only by `rotateInstance`, not by `stopInstance`),
  and `findFreeExternalProxy` returns the *first* eligible endpoint via
  `Array.find`, or `undefined`.
* `RevC` — the first revision in the unnamed source file: array-based
  instance list, rotation timer armed whenever `rotationTime` is a number
  (`!isNaN(...)`), selection by a retry-until-eligible random loop.
* `RevD` — the second revision in the unnamed source file: configs may
  carry an `expires` timestamp checked in `start()`, and an instance whose
  `rotationTime ≤ 0` acquires no endpoint (`external` stays undefined and
  the worker command receives the whole HTTP endpoint list).

Conventions of the embedding:

* A JS `Record<string, T>` keyed by `id` is a `List T` mutated only through
  the `lookupBy` / `upsertBy` / `removeBy` / `updateBy` helpers, which
  reproduce record lookup, insert-or-replace, key deletion and in-place
  field mutation.
* A JS object reference held by an instance into the pool is the entry's
  `id`; the pool list is the single source of truth for endpoint fields.
* A thrown JS exception is `Except.error msg`; every embedded operation
  throws, as the source does, before mutating any state, so an `.error`
  result leaves the manager state as it was.
* `Math.random()` is an input `r : ℚ` intended to range over `[0, 1)`;
  `Math.round` on its nonnegative arguments is `jsRound`.
* The 4-byte random instance ids of revisions A and B are explicit `String`
  inputs of the operations that generate them.
-/

namespace ProxyDJ

/-- JS `Math.round` on a nonnegative argument: round half up,
`⌊q + 1/2⌋`. Written with the kernel-computable core rational
operations; `jsRound_eq` restates it through `Int.floor`. -/
def jsRound (q : ℚ) : ℤ := (q + Rat.divInt 1 2).floor

theorem jsRound_eq (q : ℚ) : jsRound q = ⌊q + 1/2⌋ := by
  have h2 : (Rat.divInt 1 2 : ℚ) = 1/2 := by
    rw [Rat.divInt_eq_div]
    norm_num
  have hfl : ∀ x : ℚ, x.floor = ⌊x⌋ := fun x => rfl
  rw [jsRound, h2, hfl]

/-- Record lookup: `record[id]`, `undefined` as `none`. -/
def lookupBy {α : Type} (key : α → String) (l : List α) (id : String) : Option α :=
  l.find? fun x => key x == id

/-- Record insert: `record[key a] = a` replaces an existing entry with the
same key and otherwise appends. -/
def upsertBy {α : Type} (key : α → String) (l : List α) (a : α) : List α :=
  if l.any (fun x => key x == key a) then
    l.map fun x => if key x == key a then a else x
  else l ++ [a]

/-- Record key deletion: `delete record[id]`. -/
def removeBy {α : Type} (key : α → String) (l : List α) (id : String) : List α :=
  l.filter fun x => key x != id

/-- In-place mutation of the entry with the given key, through a reference. -/
def updateBy {α : Type} (key : α → String) (l : List α) (id : String) (f : α → α) : List α :=
  l.map fun x => if key x == id then f x else x

section RecordLemmas

variable {α : Type} (key : α → String)

theorem lookupBy_eq_none_iff {l : List α} {id : String} :
    lookupBy key l id = none ↔ ∀ x ∈ l, key x ≠ id := by
  simp [lookupBy, List.find?_eq_none]

theorem lookupBy_eq_some_of_mem {l : List α} {a : α} {id : String}
    (ha : a ∈ l) (hk : key a = id) : ∃ b, lookupBy key l id = some b := by
  cases hl : lookupBy key l id with
  | none => exact absurd hk ((lookupBy_eq_none_iff key).mp hl a ha)
  | some b => exact ⟨b, rfl⟩

theorem mem_of_lookupBy_eq_some {l : List α} {a : α} {id : String}
    (h : lookupBy key l id = some a) : a ∈ l ∧ key a = id := by
  refine ⟨List.mem_of_find?_eq_some h, ?_⟩
  simpa using List.find?_some h

theorem upsertBy_eq_append {l : List α} {a : α}
    (h : ∀ x ∈ l, key x ≠ key a) : upsertBy key l a = l ++ [a] := by
  unfold upsertBy
  rw [if_neg]
  simp only [List.any_eq_true, beq_iff_eq, not_exists, not_and]
  exact h

theorem lookupBy_append_last {l : List α} {a : α}
    (h : ∀ x ∈ l, key x ≠ key a) : lookupBy key (l ++ [a]) (key a) = some a := by
  unfold lookupBy
  rw [List.find?_append]
  have hnone : l.find? (fun x => key x == key a) = none := by
    rw [List.find?_eq_none]
    intro x hx
    simpa using h x hx
  simp [hnone]

theorem updateBy_append_last {l : List α} {a : α} {f : α → α}
    (h : ∀ x ∈ l, key x ≠ key a) :
    updateBy key (l ++ [a]) (key a) f = l ++ [f a] := by
  unfold updateBy
  rw [List.map_append]
  congr 1
  · have hcongr : ∀ x ∈ l,
        (if key x == key a then f x else x) = id x := by
      intro x hx
      simp [h x hx]
    rw [List.map_congr_left hcongr, List.map_id]
  · simp

theorem mem_updateBy_iff {l : List α} {id : String} {f : α → α} {x : α} :
    x ∈ updateBy key l id f ↔ ∃ y ∈ l, x = if key y == id then f y else y := by
  unfold updateBy
  rw [List.mem_map]
  constructor
  · rintro ⟨y, hy, h⟩
    exact ⟨y, hy, h.symm⟩
  · rintro ⟨y, hy, h⟩
    exact ⟨y, hy, h.symm⟩

theorem updateBy_mem_of_mem {l : List α} {id : String} {f : α → α} {y : α}
    (hy : y ∈ l) : (if key y == id then f y else y) ∈ updateBy key l id f :=
  List.mem_map_of_mem _ hy

theorem updateBy_key_invariant {id : String} {f : α → α}
    (hf : ∀ x, key (f x) = key x) (x : α) :
    key (if key x == id then f x else x) = key x := by
  split
  · exact hf x
  · rfl

theorem pairwise_keys_updateBy {l : List α} {id : String} {f : α → α}
    (hf : ∀ x, key (f x) = key x)
    (h : l.Pairwise fun a b => key a ≠ key b) :
    (updateBy key l id f).Pairwise fun a b => key a ≠ key b := by
  unfold updateBy
  rw [List.pairwise_map]
  refine h.imp_of_mem fun {a b} _ _ hab => ?_
  rw [updateBy_key_invariant key hf a, updateBy_key_invariant key hf b]
  exact hab

theorem pairwise_keys_upsertBy {l : List α} {a : α}
    (h : l.Pairwise fun x y => key x ≠ key y) :
    (upsertBy key l a).Pairwise fun x y => key x ≠ key y := by
  unfold upsertBy
  split
  · rw [List.pairwise_map]
    refine h.imp_of_mem fun {x y} _ _ hxy => ?_
    by_cases h1 : (key x == key a) = true <;> by_cases h2 : (key y == key a) = true
    · rw [beq_iff_eq] at h1 h2
      exact absurd (h1.trans h2.symm) hxy
    · rw [if_pos h1, if_neg h2]
      rw [beq_iff_eq] at h1
      rw [← h1]
      exact hxy
    · rw [if_neg h1, if_pos h2]
      rw [beq_iff_eq] at h2
      rw [← h2]
      exact hxy
    · rw [if_neg h1, if_neg h2]
      exact hxy
  · rename_i hany
    rw [List.pairwise_append]
    refine ⟨h, List.pairwise_singleton _ _, ?_⟩
    intro x hx y hy
    rw [List.mem_singleton] at hy
    subst hy
    simp only [List.any_eq_true, beq_iff_eq, not_exists, not_and] at hany
    exact hany x hx

theorem mem_of_mem_upsertBy {l : List α} {a x : α}
    (h : x ∈ upsertBy key l a) : x ∈ l ∨ x = a := by
  unfold upsertBy at h
  split at h
  · rw [List.mem_map] at h
    obtain ⟨y, hy, rfl⟩ := h
    split
    · exact Or.inr rfl
    · exact Or.inl hy
  · rw [List.mem_append, List.mem_singleton] at h
    exact h

theorem lookupBy_updateBy {l : List α} {k : String} {f : α → α}
    (hf : ∀ x, key (f x) = key x) {a : α} (h : lookupBy key l k = some a) :
    lookupBy key (updateBy key l k f) k = some (f a) := by
  induction l with
  | nil => cases h
  | cons c t ih =>
      unfold lookupBy updateBy at *
      rw [List.map_cons]
      by_cases hc : (key c == k) = true
      · rw [List.find?_cons_of_pos (p := fun x => key x == k) _ hc] at h
        rw [Option.some.injEq] at h
        subst h
        rw [if_pos hc]
        exact List.find?_cons_of_pos (p := fun x => key x == k) _
          (by show (key (f c) == k) = true; rw [hf c]; exact hc)
      · rw [List.find?_cons_of_neg (p := fun x => key x == k) _ hc] at h
        rw [if_neg hc]
        rw [List.find?_cons_of_neg (p := fun x => key x == k) _ hc]
        exact ih h

theorem lookupBy_removeBy_self {l : List α} {k : String} :
    lookupBy key (removeBy key l k) k = none := by
  rw [lookupBy_eq_none_iff]
  intro x hx
  have hmem := List.of_mem_filter hx
  simpa using hmem

theorem eq_of_keys_nodup {l : List α} (h : l.Pairwise fun x y => key x ≠ key y)
    {a b : α} (ha : a ∈ l) (hb : b ∈ l) (hk : key a = key b) : a = b := by
  induction l with
  | nil => cases ha
  | cons c t ih =>
      rw [List.pairwise_cons] at h
      rcases List.mem_cons.mp ha with rfl | ha'
      · rcases List.mem_cons.mp hb with rfl | hb'
        · rfl
        · exact absurd hk (h.1 b hb')
      · rcases List.mem_cons.mp hb with rfl | hb'
        · exact absurd hk.symm (h.1 a ha')
        · exact ih h.2 ha' hb'

end RecordLemmas

namespace RevA

/-- `ExternalProxy` of the first `proxy.ts` revision. `loadProxyList`
splits a `host:port` string, so `port` is held as a string there. -/
structure ExternalProxy where
  id : String
  host : String
  port : String
  inUse : Bool
  disabled : Bool
deriving Repr, DecidableEq

/-- `ProxyInstanceConfig`: `port: number | number[]` is a list, a scalar
being the singleton the code wraps it into. An absent `password` is
`none`. -/
structure ProxyInstanceConfig where
  user : String
  password : Option String
  port : List Nat
  rotationTime : ℚ
  disabled : Bool
  ipWhitelist : List String
deriving Repr, DecidableEq

/-- `ProxyInstance`: `externalId` is the held reference into the pool,
`rotationTimer` the armed timer's delay (seconds), `stopping` the flag set
by `stopInstance`. -/
structure ProxyInstance where
  id : String
  config : ProxyInstanceConfig
  externalId : String
  rotationTimer : Option ℚ
  stopping : Bool
deriving Repr, DecidableEq

/-- The manager's mutable state: the endpoint pool, the instance table and
the pending `setTimeout(() => this.spawnProxy(config), retryTime * 1000)`
re-spawn timers (config paired with the delay in seconds).
`retryInterval` is the `ProxyConfig.retryInterval` option captured at
construction. -/
structure ManagerState where
  proxies : List ExternalProxy
  instances : List ProxyInstance
  retryQueue : List (ProxyInstanceConfig × ℚ)
  retryInterval : Option ℚ
deriving Repr, DecidableEq

/-- The filter inside `findFreeExternalProxy`:
`p.id !== excludeId && !p.inUse` (an absent `excludeId` compares unequal
to every id). -/
def eligibleProxies (ps : List ExternalProxy) (excludeId : Option String) :
    List ExternalProxy :=
  ps.filter fun p =>
    (match excludeId with
     | some x => p.id != x
     | none => true) && !p.inUse

/-- `findFreeExternalProxy(excludeId?)`: filter, throw
`'No free external proxies'` when nothing is eligible, otherwise index by
`Math.round(Math.random() * (length - 1))`; an out-of-range index yields
JS `undefined`, embedded as `.ok none`. -/
def findFreeExternalProxy (ps : List ExternalProxy) (excludeId : Option String)
    (r : ℚ) : Except String (Option ExternalProxy) :=
  if (eligibleProxies ps excludeId).length = 0 then .error "No free external proxies"
  else .ok (eligibleProxies ps excludeId)[(jsRound
    (r * (((eligibleProxies ps excludeId).length : ℚ) - 1))).toNat]?

/-- `setExternalStatus(id, inUse)`: throw on an unknown endpoint id,
otherwise mutate the entry's `inUse` flag. -/
def setExternalStatus (s : ManagerState) (id : String) (inUse : Bool) :
    Except String ManagerState :=
  match lookupBy ExternalProxy.id s.proxies id with
  | none => .error ("ExternalProxy #" ++ id ++ " not found")
  | some _ =>
      .ok { s with proxies := updateBy ExternalProxy.id s.proxies id
                     fun p => { p with inUse := inUse } }

/-- `onProxySpawned(id)`: throw on an unknown instance, mark its endpoint
occupied, and arm the rotation timer exactly when `rotationTime > 0`. -/
def onProxySpawned (s : ManagerState) (id : String) : Except String ManagerState :=
  match lookupBy ProxyInstance.id s.instances id with
  | none => .error ("Instance " ++ id ++ " not found")
  | some inst =>
      match setExternalStatus s inst.externalId true with
      | .error e => .error e
      | .ok s1 =>
          if inst.config.rotationTime > 0 then
            .ok { s1 with instances := updateBy ProxyInstance.id s1.instances id
                            fun i => { i with rotationTimer := some inst.config.rotationTime } }
          else .ok s1

/-- `spawnProxy(config, prevExternalId?)`: select an endpoint (the throw
from `findFreeExternalProxy` propagates; a JS-`undefined` result trips
`if (!external) throw ...`), register the instance under the fresh random
id, and — because `emit` is synchronous — run `onProxySpawned` within the
call when the child process reports a pid (`pidOk`). -/
def spawnProxy (s : ManagerState) (config : ProxyInstanceConfig)
    (prevExternalId : Option String) (freshId : String) (pidOk : Bool) (r : ℚ) :
    Except String ManagerState :=
  match findFreeExternalProxy s.proxies prevExternalId r with
  | .error e => .error e
  | .ok none => .error "No free external proxy found"
  | .ok (some external) =>
      let inst : ProxyInstance :=
        { id := freshId, config := config, externalId := external.id
          rotationTimer := none, stopping := false }
      let s1 := { s with instances := upsertBy ProxyInstance.id s.instances inst }
      if pidOk then onProxySpawned s1 freshId else .ok s1

/-- The synchronous part of `stopInstance`: set the `stopping` flag and
cancel the worker (the completion notification is a later event). -/
def stopInstance (s : ManagerState) (id : String) : ManagerState :=
  { s with instances := updateBy ProxyInstance.id s.instances id
             fun i => { i with stopping := true } }

/-- The `retryTime` computation `this.config.retryInterval || 1`
(`0` and `NaN` are falsy). -/
def retryTime (retryInterval : Option ℚ) : ℚ :=
  match retryInterval with
  | some t => if t != 0 then t else 1
  | none => 1

/-- `onProxyStopped(id, output)`: throw on an unknown instance, release its
endpoint, clear the rotation timer, schedule a re-spawn of the config after
`retryTime` seconds unless the instance was `stopping`, and drop the
instance from the table. -/
def onProxyStopped (s : ManagerState) (id : String) : Except String ManagerState :=
  match lookupBy ProxyInstance.id s.instances id with
  | none => .error ("Instance " ++ id ++ " not found")
  | some inst =>
      match setExternalStatus s inst.externalId false with
      | .error e => .error e
      | .ok s1 =>
          let s2 :=
            if inst.stopping then s1
            else { s1 with retryQueue :=
                     s1.retryQueue ++ [(inst.config, retryTime s.retryInterval)] }
          .ok { s2 with instances := removeBy ProxyInstance.id s2.instances id }

/-- `rotateInstance(id)`: throw on an unknown instance, then
`await stopInstance` — whose cancellation delivers the completion
notification, so `onProxyStopped` runs next — and re-spawn the config with
the previously held endpoint excluded. -/
def rotateInstance (s : ManagerState) (id : String) (freshId : String)
    (pidOk : Bool) (r : ℚ) : Except String ManagerState :=
  match lookupBy ProxyInstance.id s.instances id with
  | none => .error ("Instance " ++ id ++ " not found")
  | some inst =>
      match onProxyStopped (stopInstance s id) id with
      | .error e => .error e
      | .ok s2 => spawnProxy s2 inst.config (some inst.externalId) freshId pidOk r

/-- `loadProxyList` entry: the pre-split `host:port` item together with the
random 8-byte id generated for it. -/
structure PoolEntry where
  id : String
  host : String
  port : String
deriving Repr, DecidableEq

/-- The constructor's `loadProxyList`: insert every item into the pool
record with `inUse: false, disabled: false`. -/
def loadProxyList (entries : List PoolEntry) : List ExternalProxy :=
  entries.foldl
    (fun ps e => upsertBy ExternalProxy.id ps
      { id := e.id, host := e.host, port := e.port, inUse := false, disabled := false })
    []

/-- The manager state right after construction: pool loaded, no instances,
no pending timers. -/
def initState (entries : List PoolEntry) (retryInterval : Option ℚ) : ManagerState :=
  { proxies := loadProxyList entries, instances := [], retryQueue := []
    retryInterval := retryInterval }

/-- One event-loop turn of the manager. `spawn` carries the fresh random
instance id, whether the child reported a pid, and the `Math.random()`
draw; `complete` is the arrival of a worker's completion notification
(`proxyStopped`); `retryFire` is the `k`-th pending re-spawn timer
firing. -/
inductive Op where
  | spawn (config : ProxyInstanceConfig) (prevExternalId : Option String)
      (freshId : String) (pidOk : Bool) (r : ℚ)
  | stopReq (id : String)
  | complete (id : String)
  | rotate (id : String) (freshId : String) (pidOk : Bool) (r : ℚ)
  | retryFire (k : Nat) (freshId : String) (pidOk : Bool) (r : ℚ)
deriving Repr

/-- Apply one event-loop turn. `stopReq` on an unknown id would
dereference `undefined` in the source, hence errors; a `retryFire` for a
timer that does not exist cannot occur and also errors. A fired retry
timer is consumed whether or not its `spawnProxy` call succeeds. -/
def applyOp (s : ManagerState) : Op → Except String ManagerState
  | .spawn config prev freshId pidOk r => spawnProxy s config prev freshId pidOk r
  | .stopReq id =>
      match lookupBy ProxyInstance.id s.instances id with
      | none => .error ("Instance " ++ id ++ " not found")
      | some _ => .ok (stopInstance s id)
  | .complete id => onProxyStopped s id
  | .rotate id freshId pidOk r => rotateInstance s id freshId pidOk r
  | .retryFire k freshId pidOk r =>
      match s.retryQueue[k]? with
      | none => .error "no pending retry timer"
      | some (config, _) =>
          spawnProxy { s with retryQueue := s.retryQueue.eraseIdx k }
            config none freshId pidOk r

/-- Run a trace of event-loop turns; an uncaught error aborts the run. -/
def runOps (s : ManagerState) : List Op → Option ManagerState
  | [] => some s
  | op :: rest =>
      match applyOp s op with
      | .error _ => none
      | .ok s' => runOps s' rest

/-- Reachability by the manager's operations from a freshly constructed
manager. -/
def Reachable (entries : List PoolEntry) (retryInterval : Option ℚ)
    (s : ManagerState) : Prop :=
  ∃ ops : List Op, runOps (initState entries retryInterval) ops = some s

/-- An op is benign when every spawn it performs reports a pid (so the
synchronous `proxySpawned` handler runs within the spawn) and registers the
instance under an id not already in the table (the 4-byte random ids are
assumed collision-free). -/
def OpBenign (s : ManagerState) : Op → Prop
  | .spawn _ _ freshId pidOk _ =>
      pidOk = true ∧ lookupBy ProxyInstance.id s.instances freshId = none
  | .stopReq _ => True
  | .complete _ => True
  | .rotate _ freshId pidOk _ =>
      pidOk = true ∧ lookupBy ProxyInstance.id s.instances freshId = none
  | .retryFire _ freshId pidOk _ =>
      pidOk = true ∧ lookupBy ProxyInstance.id s.instances freshId = none

/-- Reachability along benign traces: every spawned process reports a pid
and generated instance ids are fresh. -/
inductive ReachableBenign (entries : List PoolEntry) (retryInterval : Option ℚ) :
    ManagerState → Prop
  | init : ReachableBenign entries retryInterval (initState entries retryInterval)
  | step {s s' : ManagerState} {op : Op} :
      ReachableBenign entries retryInterval s → OpBenign s op →
      applyOp s op = .ok s' → ReachableBenign entries retryInterval s'

/-- The exclusive-assignment invariant as the specification states it:
at most one live instance holds a given endpoint whose `inUse` flag is
true, and an endpoint's `inUse` flag is true exactly when some live
instance holds it as its assigned upstream. -/
def exclusiveInv (s : ManagerState) : Prop :=
  (∀ e ∈ s.proxies, e.inUse = true →
    ∀ i1 ∈ s.instances, ∀ i2 ∈ s.instances,
      i1.externalId = e.id → i2.externalId = e.id → i1 = i2) ∧
  (∀ e ∈ s.proxies, (e.inUse = true ↔ ∃ i ∈ s.instances, i.externalId = e.id))

instance (s : ManagerState) : Decidable (exclusiveInv s) := by
  unfold exclusiveInv; infer_instance

/-! ### Soundness facts about the revision-A operations -/

theorem mem_eligible {ps : List ExternalProxy} {ex : Option String} {e : ExternalProxy}
    (h : e ∈ eligibleProxies ps ex) :
    e ∈ ps ∧ e.inUse = false ∧ ∀ x, ex = some x → e.id ≠ x := by
  rw [eligibleProxies, List.mem_filter] at h
  obtain ⟨hmem, hp⟩ := h
  rw [Bool.and_eq_true] at hp
  obtain ⟨hex, huse⟩ := hp
  refine ⟨hmem, by simpa using huse, ?_⟩
  rintro x rfl
  simpa using hex

theorem findFreeExternalProxy_sound {ps : List ExternalProxy} {ex : Option String}
    {r : ℚ} {e : ExternalProxy}
    (h : findFreeExternalProxy ps ex r = .ok (some e)) :
    e ∈ ps ∧ e.inUse = false ∧ ∀ x, ex = some x → e.id ≠ x := by
  unfold findFreeExternalProxy at h
  split at h
  · cases h
  · rw [Except.ok.injEq] at h
    exact mem_eligible (List.getElem?_mem h)

theorem jsRound_lt {n : ℕ} (hn : 0 < n) {r : ℚ} (h0 : 0 ≤ r) (h1 : r < 1) :
    (jsRound (r * ((n : ℚ) - 1))).toNat < n := by
  have hn1 : (0 : ℚ) ≤ (n : ℚ) - 1 := by
    have hcast : (1 : ℚ) ≤ (n : ℚ) := by exact_mod_cast hn
    linarith
  have hx : r * ((n : ℚ) - 1) ≤ (n : ℚ) - 1 := by nlinarith
  have hfl : jsRound (r * ((n : ℚ) - 1)) < (n : ℤ) := by
    rw [jsRound_eq, Int.floor_lt]
    push_cast
    linarith
  omega

theorem findFreeExternalProxy_ok_of_ne {ps : List ExternalProxy} {ex : Option String}
    {r : ℚ} (hne : eligibleProxies ps ex ≠ []) (h0 : 0 ≤ r) (h1 : r < 1) :
    ∃ e ∈ eligibleProxies ps ex, findFreeExternalProxy ps ex r = .ok (some e) := by
  have hlen : 0 < (eligibleProxies ps ex).length := List.length_pos.mpr hne
  have hidx := jsRound_lt hlen h0 h1
  refine ⟨(eligibleProxies ps ex)[(jsRound
      (r * (((eligibleProxies ps ex).length : ℚ) - 1))).toNat], List.getElem_mem _, ?_⟩
  unfold findFreeExternalProxy
  rw [if_neg (by omega)]
  rw [List.getElem?_eq_getElem hidx]

theorem updateBy_eq_self {α : Type} (key : α → String) {l : List α} {k : String}
    {f : α → α} (h : ∀ x ∈ l, key x ≠ k) : updateBy key l k f = l := by
  induction l with
  | nil => rfl
  | cons c t ih =>
      unfold updateBy at *
      simp only [List.map_cons]
      rw [if_neg (by simpa using h c (List.mem_cons_self c t)),
        ih fun x hx => h x (List.mem_cons_of_mem c hx)]

theorem spawnProxy_error_of_exhausted {s : ManagerState} {config : ProxyInstanceConfig}
    {prev : Option String} {freshId : String} {pidOk : Bool} {r : ℚ}
    (h : eligibleProxies s.proxies prev = []) :
    spawnProxy s config prev freshId pidOk r = .error "No free external proxies" := by
  unfold spawnProxy findFreeExternalProxy
  simp [h]

/-- The instance record `spawnProxy` registers before the `proxySpawned`
notification runs. -/
def rawInstance (config : ProxyInstanceConfig) (freshId : String) (eid : String) :
    ProxyInstance :=
  { id := freshId, config := config, externalId := eid,
    rotationTimer := none, stopping := false }

/-- The instance record after a pid-reporting spawn's synchronous
`proxySpawned` notification. -/
def spawnedInstance (config : ProxyInstanceConfig) (freshId : String) (eid : String) :
    ProxyInstance :=
  { id := freshId, config := config, externalId := eid,
    rotationTimer := if config.rotationTime > 0 then some config.rotationTime else none,
    stopping := false }

theorem setExternalStatus_ok {s : ManagerState} {k : String} {b : ExternalProxy}
    {flag : Bool} (hb : lookupBy ExternalProxy.id s.proxies k = some b) :
    setExternalStatus s k flag = .ok { s with
      proxies := updateBy ExternalProxy.id s.proxies k fun p => { p with inUse := flag } } := by
  unfold setExternalStatus
  rw [hb]

theorem onProxySpawned_ok {s : ManagerState} {id : String} {inst : ProxyInstance}
    {b : ExternalProxy}
    (hl : lookupBy ProxyInstance.id s.instances id = some inst)
    (hb : lookupBy ExternalProxy.id s.proxies inst.externalId = some b) :
    onProxySpawned s id = .ok { s with
      proxies := updateBy ExternalProxy.id s.proxies inst.externalId
        fun p => { p with inUse := true }
      instances := if inst.config.rotationTime > 0 then
          updateBy ProxyInstance.id s.instances id
            fun i => { i with rotationTimer := some inst.config.rotationTime }
        else s.instances } := by
  unfold onProxySpawned
  simp only [hl, setExternalStatus_ok hb]
  by_cases hrt : inst.config.rotationTime > 0
  · rw [if_pos hrt, if_pos hrt]
  · rw [if_neg hrt, if_neg hrt]

theorem spawnProxy_ok_eq {s : ManagerState} {config : ProxyInstanceConfig}
    {prev : Option String} {freshId : String} {r : ℚ} {e : ExternalProxy}
    (hff : findFreeExternalProxy s.proxies prev r = .ok (some e)) :
    spawnProxy s config prev freshId true r =
      onProxySpawned { s with instances := upsertBy ProxyInstance.id s.instances (rawInstance config freshId e.id) } freshId := by
  unfold spawnProxy
  simp only [hff]
  rfl

/-- The complete effect of a successful spawn whose child reports a pid:
some eligible endpoint is selected, marked in use, and a fresh instance
holding it is appended, its rotation timer armed exactly when
`rotationTime > 0`; nothing else changes. -/
theorem spawnProxy_ok_spec {s : ManagerState} {config : ProxyInstanceConfig}
    {prev : Option String} {freshId : String} {r : ℚ}
    (hfresh : ∀ i ∈ s.instances, i.id ≠ freshId)
    (hne : eligibleProxies s.proxies prev ≠ []) (h0 : 0 ≤ r) (h1 : r < 1) :
    ∃ e ∈ eligibleProxies s.proxies prev,
      spawnProxy s config prev freshId true r = .ok
        { s with
          proxies := updateBy ExternalProxy.id s.proxies e.id
            fun p => { p with inUse := true }
          instances := s.instances ++ [spawnedInstance config freshId e.id] } := by
  obtain ⟨e, hmem, hff⟩ := findFreeExternalProxy_ok_of_ne hne h0 h1
  refine ⟨e, hmem, ?_⟩
  have hfresh2 : ∀ x ∈ s.instances,
      ProxyInstance.id x ≠ (rawInstance config freshId e.id).id :=
    fun x hx => hfresh x hx
  have hup : upsertBy ProxyInstance.id s.instances (rawInstance config freshId e.id) =
      s.instances ++ [rawInstance config freshId e.id] :=
    upsertBy_eq_append _ hfresh2
  have hlook : lookupBy ProxyInstance.id
      (s.instances ++ [rawInstance config freshId e.id]) freshId =
      some (rawInstance config freshId e.id) :=
    lookupBy_append_last _ hfresh2
  obtain ⟨b, hb⟩ := lookupBy_eq_some_of_mem ExternalProxy.id
    (mem_eligible hmem).1 (rfl : e.id = e.id)
  rw [spawnProxy_ok_eq hff, hup, onProxySpawned_ok hlook hb]
  simp only [rawInstance]
  by_cases hrt : config.rotationTime > 0
  · rw [if_pos hrt]
    rw [updateBy_append_last ProxyInstance.id fun x hx => hfresh x hx]
    simp only [spawnedInstance, if_pos hrt]
  · rw [if_neg hrt]
    simp only [spawnedInstance, if_neg hrt]

theorem findFreeExternalProxy_eligible {ps : List ExternalProxy} {ex : Option String}
    {r : ℚ} {e : ExternalProxy}
    (h : findFreeExternalProxy ps ex r = .ok (some e)) : e ∈ eligibleProxies ps ex := by
  unfold findFreeExternalProxy at h
  split at h
  · cases h
  · rw [Except.ok.injEq] at h
    exact List.getElem?_mem h

theorem spawnProxy_ok_spec' {s : ManagerState} {config : ProxyInstanceConfig}
    {prev : Option String} {freshId : String} {r : ℚ} {e : ExternalProxy}
    (hfresh : ∀ i ∈ s.instances, i.id ≠ freshId)
    (hff : findFreeExternalProxy s.proxies prev r = .ok (some e)) :
    spawnProxy s config prev freshId true r = .ok
      { s with
        proxies := updateBy ExternalProxy.id s.proxies e.id
          fun p => { p with inUse := true }
        instances := s.instances ++ [spawnedInstance config freshId e.id] } := by
  have hfresh2 : ∀ x ∈ s.instances,
      ProxyInstance.id x ≠ (rawInstance config freshId e.id).id :=
    fun x hx => hfresh x hx
  have hup : upsertBy ProxyInstance.id s.instances (rawInstance config freshId e.id) =
      s.instances ++ [rawInstance config freshId e.id] :=
    upsertBy_eq_append _ hfresh2
  have hlook : lookupBy ProxyInstance.id
      (s.instances ++ [rawInstance config freshId e.id]) freshId =
      some (rawInstance config freshId e.id) :=
    lookupBy_append_last _ hfresh2
  obtain ⟨b, hb⟩ := lookupBy_eq_some_of_mem ExternalProxy.id
    (mem_eligible (findFreeExternalProxy_eligible hff)).1 (rfl : e.id = e.id)
  rw [spawnProxy_ok_eq hff, hup, onProxySpawned_ok hlook hb]
  simp only [rawInstance]
  by_cases hrt : config.rotationTime > 0
  · rw [if_pos hrt]
    rw [updateBy_append_last ProxyInstance.id fun x hx => hfresh x hx]
    simp only [spawnedInstance, if_pos hrt]
  · rw [if_neg hrt]
    simp only [spawnedInstance, if_neg hrt]

theorem spawnProxy_err_eq {s : ManagerState} {config : ProxyInstanceConfig}
    {prev : Option String} {freshId : String} {pidOk : Bool} {r : ℚ} {msg : String}
    (hff : findFreeExternalProxy s.proxies prev r = .error msg) :
    spawnProxy s config prev freshId pidOk r = .error msg := by
  unfold spawnProxy
  simp only [hff]

theorem spawnProxy_undef_eq {s : ManagerState} {config : ProxyInstanceConfig}
    {prev : Option String} {freshId : String} {pidOk : Bool} {r : ℚ}
    (hff : findFreeExternalProxy s.proxies prev r = .ok none) :
    spawnProxy s config prev freshId pidOk r = .error "No free external proxy found" := by
  unfold spawnProxy
  simp only [hff]

theorem spawnProxy_ok_inv {s s' : ManagerState} {config : ProxyInstanceConfig}
    {prev : Option String} {freshId : String} {r : ℚ}
    (hfresh : ∀ i ∈ s.instances, i.id ≠ freshId)
    (h : spawnProxy s config prev freshId true r = .ok s') :
    ∃ e ∈ eligibleProxies s.proxies prev,
      s' = { s with
        proxies := updateBy ExternalProxy.id s.proxies e.id
          fun p => { p with inUse := true }
        instances := s.instances ++ [spawnedInstance config freshId e.id] } := by
  cases hff : findFreeExternalProxy s.proxies prev r with
  | error msg => rw [spawnProxy_err_eq hff] at h; cases h
  | ok o =>
      cases o with
      | none => rw [spawnProxy_undef_eq hff] at h; cases h
      | some e =>
          rw [spawnProxy_ok_spec' hfresh hff] at h
          rw [Except.ok.injEq] at h
          exact ⟨e, findFreeExternalProxy_eligible hff, h.symm⟩

theorem onProxyStopped_ok {s : ManagerState} {id : String} {inst : ProxyInstance}
    {b : ExternalProxy}
    (hl : lookupBy ProxyInstance.id s.instances id = some inst)
    (hb : lookupBy ExternalProxy.id s.proxies inst.externalId = some b) :
    onProxyStopped s id = .ok { s with
      proxies := updateBy ExternalProxy.id s.proxies inst.externalId
        fun p => { p with inUse := false }
      instances := removeBy ProxyInstance.id s.instances id
      retryQueue := if inst.stopping then s.retryQueue
        else s.retryQueue ++ [(inst.config, retryTime s.retryInterval)] } := by
  unfold onProxyStopped
  simp only [hl, setExternalStatus_ok hb]
  by_cases hstop : inst.stopping = true
  · rw [if_pos hstop, if_pos hstop]
  · rw [if_neg hstop, if_neg hstop]

theorem onProxyStopped_ok_inv {s s' : ManagerState} {id : String}
    (h : onProxyStopped s id = .ok s') :
    ∃ inst ∈ s.instances, inst.id = id ∧
      s' = { s with
        proxies := updateBy ExternalProxy.id s.proxies inst.externalId
          fun p => { p with inUse := false }
        instances := removeBy ProxyInstance.id s.instances id
        retryQueue := if inst.stopping then s.retryQueue
          else s.retryQueue ++ [(inst.config, retryTime s.retryInterval)] } := by
  cases hl : lookupBy ProxyInstance.id s.instances id with
  | none => unfold onProxyStopped at h; rw [hl] at h; cases h
  | some inst =>
      obtain ⟨hmem, hkey⟩ := mem_of_lookupBy_eq_some ProxyInstance.id hl
      cases hb : lookupBy ExternalProxy.id s.proxies inst.externalId with
      | none =>
          unfold onProxyStopped setExternalStatus at h
          rw [hl] at h
          simp only [hb] at h
          cases h
      | some b =>
          rw [onProxyStopped_ok hl hb] at h
          rw [Except.ok.injEq] at h
          exact ⟨inst, hmem, hkey, h.symm⟩

/-! ### The inductive invariant over benign traces -/

/-- The inductive strengthening of the exclusive-assignment invariant:
pool and table ids are duplicate-free, every held endpoint reference
resolves in the pool, distinct live instances hold distinct endpoints, and
an endpoint is `inUse` exactly when some live instance holds it. -/
structure StrongInv (s : ManagerState) : Prop where
  proxyIds : s.proxies.Pairwise fun a b => a.id ≠ b.id
  instIds : s.instances.Pairwise fun a b => a.id ≠ b.id
  extMem : ∀ i ∈ s.instances, ∃ e ∈ s.proxies, i.externalId = e.id
  excl : ∀ i1 ∈ s.instances, ∀ i2 ∈ s.instances,
    i1.externalId = i2.externalId → i1 = i2
  occ : ∀ e ∈ s.proxies, (e.inUse = true ↔ ∃ i ∈ s.instances, i.externalId = e.id)

theorem StrongInv.toExclusiveInv {s : ManagerState} (h : StrongInv s) :
    exclusiveInv s :=
  ⟨fun e _ _ i1 h1 i2 h2 hx1 hx2 => h.excl i1 h1 i2 h2 (hx1.trans hx2.symm), h.occ⟩

theorem strongInv_retryQueue {s : ManagerState} (h : StrongInv s)
    (q : List (ProxyInstanceConfig × ℚ)) : StrongInv { s with retryQueue := q } :=
  ⟨h.proxyIds, h.instIds, h.extMem, h.excl, h.occ⟩

/-- Mutating instance-table entries through a field update that leaves both
the id and the held endpoint untouched preserves the invariant. -/
theorem strongInv_updateInstances {s : ManagerState} {k : String}
    {f : ProxyInstance → ProxyInstance}
    (hid : ∀ i, (f i).id = i.id) (hext : ∀ i, (f i).externalId = i.externalId)
    (h : StrongInv s) :
    StrongInv { s with instances := updateBy ProxyInstance.id s.instances k f } := by
  have gid : ∀ y : ProxyInstance,
      (if ProxyInstance.id y == k then f y else y).id = y.id := by
    intro y; split
    · exact hid y
    · rfl
  have gext : ∀ y : ProxyInstance,
      (if ProxyInstance.id y == k then f y else y).externalId = y.externalId := by
    intro y; split
    · exact hext y
    · rfl
  refine ⟨h.proxyIds, pairwise_keys_updateBy ProxyInstance.id hid h.instIds, ?_, ?_, ?_⟩
  · intro i hi
    obtain ⟨y, hy, rfl⟩ := (mem_updateBy_iff ProxyInstance.id).mp hi
    rw [gext y]
    exact h.extMem y hy
  · intro i1 h1 i2 h2 hx
    obtain ⟨y1, hy1, rfl⟩ := (mem_updateBy_iff ProxyInstance.id).mp h1
    obtain ⟨y2, hy2, rfl⟩ := (mem_updateBy_iff ProxyInstance.id).mp h2
    rw [gext y1, gext y2] at hx
    rw [h.excl y1 hy1 y2 hy2 hx]
  · intro e he
    rw [h.occ e he]
    constructor
    · rintro ⟨i, hi, hx⟩
      refine ⟨if ProxyInstance.id i == k then f i else i,
        updateBy_mem_of_mem ProxyInstance.id hi, ?_⟩
      rw [gext i, hx]
    · rintro ⟨i, hi, hx⟩
      obtain ⟨y, hy, rfl⟩ := (mem_updateBy_iff ProxyInstance.id).mp hi
      rw [gext y] at hx
      exact ⟨y, hy, hx⟩

/-- The post-state of a pid-reporting spawn keeps the invariant: the
selected endpoint was free, so no live instance held it, and the new
instance now holds it with the flag set. -/
theorem strongInv_spawn_post {s : ManagerState} {e : ExternalProxy}
    {instF : ProxyInstance}
    (h : StrongInv s) (hmem : e ∈ s.proxies) (hfree : e.inUse = false)
    (hext : instF.externalId = e.id)
    (hfresh : ∀ i ∈ s.instances, i.id ≠ instF.id) :
    StrongInv { s with
      proxies := updateBy ExternalProxy.id s.proxies e.id
        fun p => { p with inUse := true }
      instances := s.instances ++ [instF] } := by
  have hnotheld : ∀ i ∈ s.instances, i.externalId ≠ e.id := by
    intro i hi hx
    have : e.inUse = true := (h.occ e hmem).mpr ⟨i, hi, hx⟩
    rw [hfree] at this
    cases this
  refine ⟨?_, ?_, ?_, ?_, ?_⟩
  · exact pairwise_keys_updateBy ExternalProxy.id (fun p => rfl) h.proxyIds
  · rw [List.pairwise_append]
    exact ⟨h.instIds, List.pairwise_singleton _ _,
      fun i hi j hj => by rw [List.mem_singleton] at hj; subst hj; exact hfresh i hi⟩
  · intro i hi
    rw [List.mem_append, List.mem_singleton] at hi
    rcases hi with hi | rfl
    · obtain ⟨p, hp, hx⟩ := h.extMem i hi
      refine ⟨if ExternalProxy.id p == e.id then { p with inUse := true } else p,
        updateBy_mem_of_mem ExternalProxy.id hp, ?_⟩
      split
      · rename_i hpe
        rw [beq_iff_eq] at hpe
        rw [hx, hpe]
      · exact hx
    · refine ⟨{ e with inUse := true }, ?_, hext⟩
      exact (mem_updateBy_iff ExternalProxy.id).mpr ⟨e, hmem, by simp⟩
  · intro i1 h1 i2 h2 hx
    rw [List.mem_append, List.mem_singleton] at h1 h2
    rcases h1 with h1 | rfl <;> rcases h2 with h2 | rfl
    · exact h.excl i1 h1 i2 h2 hx
    · rw [hext] at hx
      exact absurd hx (hnotheld i1 h1)
    · rw [hext] at hx
      exact absurd hx.symm (hnotheld i2 h2)
    · rfl
  · intro p' hp'
    obtain ⟨p, hp, rfl⟩ := (mem_updateBy_iff ExternalProxy.id).mp hp'
    by_cases hpe : (ExternalProxy.id p == e.id) = true
    · rw [beq_iff_eq] at hpe
      have hpev : p = e := eq_of_keys_nodup ExternalProxy.id h.proxyIds hp hmem hpe
      subst hpev
      rw [if_pos (by simp)]
      constructor
      · intro _
        exact ⟨instF, by simp, hext⟩
      · intro _
        rfl
    · rw [if_neg hpe]
      rw [beq_iff_eq] at hpe
      rw [h.occ p hp]
      constructor
      · rintro ⟨i, hi, hx⟩
        exact ⟨i, List.mem_append_left _ hi, hx⟩
      · rintro ⟨i, hi, hx⟩
        rw [List.mem_append, List.mem_singleton] at hi
        rcases hi with hi | rfl
        · exact ⟨i, hi, hx⟩
        · rw [hext] at hx
          exact absurd hx.symm hpe

/-- The post-state of a completion notification keeps the invariant: the
departing instance was the unique holder of its endpoint, which is now
released. -/
theorem strongInv_remove_release {s : ManagerState} {inst : ProxyInstance}
    (h : StrongInv s) (hmem : inst ∈ s.instances)
    (q : List (ProxyInstanceConfig × ℚ)) :
    StrongInv { s with
      proxies := updateBy ExternalProxy.id s.proxies inst.externalId
        fun p => { p with inUse := false }
      instances := removeBy ProxyInstance.id s.instances inst.id
      retryQueue := q } := by
  have hsub : ∀ i, i ∈ removeBy ProxyInstance.id s.instances inst.id → i ∈ s.instances :=
    fun i hi => List.mem_of_mem_filter hi
  have hnotinst : ∀ i ∈ removeBy ProxyInstance.id s.instances inst.id,
      i.externalId ≠ inst.externalId := by
    intro i hi hx
    have hieq : i = inst := h.excl i (hsub i hi) inst hmem hx
    subst hieq
    have := List.of_mem_filter hi
    simp at this
  refine ⟨?_, ?_, ?_, ?_, ?_⟩
  · exact pairwise_keys_updateBy ExternalProxy.id (fun p => rfl) h.proxyIds
  · exact h.instIds.sublist (List.filter_sublist _)
  · intro i hi
    obtain ⟨p, hp, hx⟩ := h.extMem i (hsub i hi)
    refine ⟨if ExternalProxy.id p == inst.externalId then { p with inUse := false } else p,
      updateBy_mem_of_mem ExternalProxy.id hp, ?_⟩
    split
    · rename_i hpe
      rw [beq_iff_eq] at hpe
      rw [hx, hpe]
    · exact hx
  · intro i1 h1 i2 h2 hx
    exact h.excl i1 (hsub i1 h1) i2 (hsub i2 h2) hx
  · intro p' hp'
    obtain ⟨p, hp, rfl⟩ := (mem_updateBy_iff ExternalProxy.id).mp hp'
    by_cases hpe : (ExternalProxy.id p == inst.externalId) = true
    · rw [beq_iff_eq] at hpe
      rw [if_pos (by simpa using hpe)]
      constructor
      · intro hfalse
        cases hfalse
      · rintro ⟨i, hi, hx⟩
        rw [hpe] at hx
        exact absurd hx (hnotinst i hi)
    · rw [if_neg hpe]
      rw [beq_iff_eq] at hpe
      rw [h.occ p hp]
      constructor
      · rintro ⟨i, hi, hx⟩
        have hine : i.id ≠ inst.id := by
          intro hieq
          have : i = inst := eq_of_keys_nodup ProxyInstance.id h.instIds hi hmem hieq
          subst this
          exact hpe (hx ▸ rfl)
        refine ⟨i, ?_, hx⟩
        rw [removeBy, List.mem_filter]
        exact ⟨hi, by simpa using hine⟩
      · rintro ⟨i, hi, hx⟩
        exact ⟨i, hsub i hi, hx⟩

theorem freshIn_updateBy {l : List ProxyInstance} {k fid : String}
    {f : ProxyInstance → ProxyInstance} (hid : ∀ i, (f i).id = i.id)
    (h : ∀ i ∈ l, i.id ≠ fid) :
    ∀ i ∈ updateBy ProxyInstance.id l k f, i.id ≠ fid := by
  intro i hi
  obtain ⟨y, hy, rfl⟩ := (mem_updateBy_iff ProxyInstance.id).mp hi
  have hk : (if ProxyInstance.id y == k then f y else y).id = y.id := by
    split
    · exact hid y
    · rfl
  rw [hk]
  exact h y hy

theorem freshIn_removeBy {l : List ProxyInstance} {k fid : String}
    (h : ∀ i ∈ l, i.id ≠ fid) :
    ∀ i ∈ removeBy ProxyInstance.id l k, i.id ≠ fid :=
  fun i hi => h i (List.mem_of_mem_filter hi)

/-- Every benign event-loop turn preserves the invariant. -/
theorem strongInv_applyOp {s s' : ManagerState} {op : Op}
    (h : StrongInv s) (hben : OpBenign s op) (hok : applyOp s op = .ok s') :
    StrongInv s' := by
  cases op with
  | spawn config prev freshId pidOk r =>
      obtain ⟨hpid, hfresh0⟩ := hben
      subst hpid
      have hfresh : ∀ i ∈ s.instances, i.id ≠ freshId :=
        (lookupBy_eq_none_iff ProxyInstance.id).mp hfresh0
      simp only [applyOp] at hok
      obtain ⟨e, helig, rfl⟩ := spawnProxy_ok_inv hfresh hok
      obtain ⟨hmem, hfree, -⟩ := mem_eligible helig
      exact strongInv_spawn_post h hmem hfree rfl fun i hi => hfresh i hi
  | stopReq id =>
      simp only [applyOp] at hok
      cases hl : lookupBy ProxyInstance.id s.instances id with
      | none => rw [hl] at hok; cases hok
      | some inst =>
          rw [hl] at hok
          rw [Except.ok.injEq] at hok
          subst hok
          exact strongInv_updateInstances (fun i => rfl) (fun i => rfl) h
  | complete id =>
      simp only [applyOp] at hok
      obtain ⟨inst, hmem, hkey, rfl⟩ := onProxyStopped_ok_inv hok
      subst hkey
      exact strongInv_remove_release h hmem _
  | rotate id freshId pidOk r =>
      obtain ⟨hpid, hfresh0⟩ := hben
      subst hpid
      have hfresh : ∀ i ∈ s.instances, i.id ≠ freshId :=
        (lookupBy_eq_none_iff ProxyInstance.id).mp hfresh0
      simp only [applyOp] at hok
      unfold rotateInstance at hok
      cases hl : lookupBy ProxyInstance.id s.instances id with
      | none => rw [hl] at hok; cases hok
      | some inst =>
          simp only [hl] at hok
          cases hstop : onProxyStopped (stopInstance s id) id with
          | error msg => simp only [hstop] at hok; cases hok
          | ok s2 =>
              simp only [hstop] at hok
              have h1 : StrongInv (stopInstance s id) :=
                strongInv_updateInstances (fun i => rfl) (fun i => rfl) h
              have hfresh1 : ∀ i ∈ (stopInstance s id).instances, i.id ≠ freshId :=
                freshIn_updateBy (fun i => rfl) hfresh
              obtain ⟨inst2, hmem2, hkey2, rfl⟩ := onProxyStopped_ok_inv hstop
              subst hkey2
              have h2 := strongInv_remove_release h1 hmem2
                (if inst2.stopping then (stopInstance s inst2.id).retryQueue
                 else (stopInstance s inst2.id).retryQueue ++
                   [(inst2.config, retryTime (stopInstance s inst2.id).retryInterval)])
              have hfresh2 : ∀ i ∈ removeBy ProxyInstance.id
                  (stopInstance s inst2.id).instances inst2.id, i.id ≠ freshId :=
                freshIn_removeBy hfresh1
              obtain ⟨e, helig, rfl⟩ := spawnProxy_ok_inv hfresh2 hok
              obtain ⟨hmem3, hfree3, -⟩ := mem_eligible helig
              exact strongInv_spawn_post h2 hmem3 hfree3 rfl fun i hi => hfresh2 i hi
  | retryFire k freshId pidOk r =>
      obtain ⟨hpid, hfresh0⟩ := hben
      subst hpid
      have hfresh : ∀ i ∈ s.instances, i.id ≠ freshId :=
        (lookupBy_eq_none_iff ProxyInstance.id).mp hfresh0
      simp only [applyOp] at hok
      cases hq : s.retryQueue[k]? with
      | none => rw [hq] at hok; cases hok
      | some entry =>
          obtain ⟨config, d⟩ := entry
          simp only [hq] at hok
          have h1 := strongInv_retryQueue h (s.retryQueue.eraseIdx k)
          obtain ⟨e, helig, rfl⟩ := spawnProxy_ok_inv
            (s := { s with retryQueue := s.retryQueue.eraseIdx k }) hfresh hok
          obtain ⟨hmem, hfree, -⟩ := mem_eligible helig
          exact strongInv_spawn_post h1 hmem hfree rfl fun i hi => hfresh i hi

theorem loadProxyList_aux (entries : List PoolEntry) (acc : List ExternalProxy)
    (h1 : acc.Pairwise fun a b => a.id ≠ b.id) (h2 : ∀ e ∈ acc, e.inUse = false) :
    (entries.foldl (fun ps e => upsertBy ExternalProxy.id ps
        { id := e.id, host := e.host, port := e.port, inUse := false, disabled := false })
      acc).Pairwise (fun a b => a.id ≠ b.id) ∧
    ∀ x ∈ entries.foldl (fun ps e => upsertBy ExternalProxy.id ps
        { id := e.id, host := e.host, port := e.port, inUse := false, disabled := false })
      acc, x.inUse = false := by
  induction entries generalizing acc with
  | nil => exact ⟨h1, h2⟩
  | cons c t ih =>
      simp only [List.foldl_cons]
      refine ih _ (pairwise_keys_upsertBy _ h1) ?_
      intro x hx
      rcases mem_of_mem_upsertBy _ hx with hx' | rfl
      · exact h2 x hx'
      · rfl

theorem strongInv_init (entries : List PoolEntry) (ri : Option ℚ) :
    StrongInv (initState entries ri) := by
  obtain ⟨h1, h2⟩ := loadProxyList_aux entries [] List.Pairwise.nil (by intro e he; cases he)
  refine ⟨h1, List.Pairwise.nil, ?_, ?_, ?_⟩
  · intro i hi; cases hi
  · intro i1 hm1 i2 hm2 hx; cases hm1
  · intro e he
    constructor
    · intro huse
      rw [h2 e he] at huse
      cases huse
    · rintro ⟨i, hi, -⟩
      cases hi

theorem strongInv_reachableBenign {entries : List PoolEntry} {ri : Option ℚ}
    {s : ManagerState} (h : ReachableBenign entries ri s) : StrongInv s := by
  induction h with
  | init => exact strongInv_init entries ri
  | step hr hb hok ih => exact strongInv_applyOp ih hb hok

/-! ### Evaluation helpers for concrete traces -/

theorem findFree_singleton_eq {ps : List ExternalProxy} {ex : Option String}
    {e : ExternalProxy} (h : eligibleProxies ps ex = [e]) :
    findFreeExternalProxy ps ex 0 = .ok (some e) := by
  unfold findFreeExternalProxy
  rw [h]
  norm_num [jsRound_eq]

theorem spawnProxy_nopid_eq {s : ManagerState} {config : ProxyInstanceConfig}
    {prev : Option String} {freshId : String} {r : ℚ} {e : ExternalProxy}
    (hff : findFreeExternalProxy s.proxies prev r = .ok (some e)) :
    spawnProxy s config prev freshId false r = .ok
      { s with instances := upsertBy ProxyInstance.id s.instances (rawInstance config freshId e.id) } := by
  unfold spawnProxy
  simp only [hff]
  rfl

theorem runOps_cons_ok {s s' : ManagerState} {op : Op} {rest : List Op}
    (h : applyOp s op = .ok s') : runOps s (op :: rest) = runOps s' rest := by
  simp only [runOps, h]

/-! ### Concrete material for the exclusive-assignment claim -/

/-- A one-endpoint pool. -/
def c1Pool : List PoolEntry := [{ id := "e1", host := "10.0.0.1", port := "3128" }]

def c1Config1 : ProxyInstanceConfig :=
  { user := "alice", password := none, port := [3000], rotationTime := 0,
    disabled := false, ipWhitelist := [] }

def c1Config2 : ProxyInstanceConfig :=
  { user := "bob", password := none, port := [3001], rotationTime := 0,
    disabled := false, ipWhitelist := [] }

/-- A spawn whose child reports no pid, followed by one that does: the
first spawn selects the sole endpoint but never marks it, the second spawn
selects it again. -/
def c1Trace : List Op :=
  [.spawn c1Config1 none "aaaa" false 0, .spawn c1Config2 none "bbbb" true 0]

/-- The sole pool entry while free. -/
def c1Free : ExternalProxy :=
  { id := "e1", host := "10.0.0.1", port := "3128", inUse := false, disabled := false }

/-- The sole pool entry once marked in use. -/
def c1Used : ExternalProxy :=
  { id := "e1", host := "10.0.0.1", port := "3128", inUse := true, disabled := false }

def c1Inst1 : ProxyInstance :=
  { id := "aaaa", config := c1Config1, externalId := "e1", rotationTimer := none, stopping := false }

def c1Inst2 : ProxyInstance :=
  { id := "bbbb", config := c1Config2, externalId := "e1", rotationTimer := none, stopping := false }

/-- The state after the first (pid-less) spawn of `c1Trace`. -/
def c1MidState : ManagerState :=
  { proxies := [c1Free], instances := [c1Inst1], retryQueue := [], retryInterval := none }

/-- The state after `c1Trace`: two live instances both holding endpoint
`e1`, whose `inUse` flag is true. -/
def c1BadState : ManagerState :=
  { proxies := [c1Used], instances := [c1Inst1, c1Inst2], retryQueue := [], retryInterval := none }

theorem c1Trace_runOps : runOps (initState c1Pool none) c1Trace = some c1BadState := by
  have h1 : eligibleProxies (initState c1Pool none).proxies none = [c1Free] := by decide
  have hs1 : applyOp (initState c1Pool none)
      (Op.spawn c1Config1 none "aaaa" false 0) = .ok c1MidState := by
    simp only [applyOp, spawnProxy_nopid_eq (findFree_singleton_eq h1)]
    rfl
  have h2 : eligibleProxies c1MidState.proxies none = [c1Free] := by decide
  have hfresh : ∀ i ∈ c1MidState.instances, i.id ≠ "bbbb" := by decide
  have hs2 : applyOp c1MidState (Op.spawn c1Config2 none "bbbb" true 0) = .ok c1BadState := by
    simp only [applyOp, spawnProxy_ok_spec' hfresh (findFree_singleton_eq h2)]
    rw [Except.ok.injEq]
    rw [show spawnedInstance c1Config2 "bbbb" c1Free.id = c1Inst2 from by
      unfold spawnedInstance c1Inst2
      rw [if_neg (by decide)]
      rfl]
    rfl
  unfold c1Trace
  rw [runOps_cons_ok hs1, runOps_cons_ok hs2]
  rfl

/-- The state after a single pid-reporting spawn from a fresh manager. -/
def c1OkState : ManagerState :=
  { proxies := [c1Used], instances := [c1Inst1], retryQueue := [], retryInterval := none }

theorem c1OkState_step : applyOp (initState c1Pool none)
    (Op.spawn c1Config1 none "aaaa" true 0) = .ok c1OkState := by
  have h1 : eligibleProxies (initState c1Pool none).proxies none = [c1Free] := by decide
  have hfresh : ∀ i ∈ (initState c1Pool none).instances, i.id ≠ "aaaa" := by decide
  simp only [applyOp, spawnProxy_ok_spec' hfresh (findFree_singleton_eq h1)]
  rw [Except.ok.injEq]
  rw [show spawnedInstance c1Config1 "aaaa" c1Free.id = c1Inst1 from by
    unfold spawnedInstance c1Inst1
    rw [if_neg (by decide)]
    rfl]
  rfl

end RevA

/-- C1. The exclusive-assignment invariant as stated — quantified over all
states reachable by the manager's operations, including a spawn whose
child reports no pid — is false: after `c1Trace` (a pid-less spawn
followed by a pid-reporting one on a one-endpoint pool) two live instances
hold endpoint `e1` while its `inUse` flag is true, and before the second
spawn the held endpoint's flag was still false. -/
theorem c1_exclusive_invariant_counterexample :
    RevA.runOps (RevA.initState RevA.c1Pool none) RevA.c1Trace = some RevA.c1BadState ∧
    ¬ RevA.exclusiveInv RevA.c1BadState :=
  ⟨RevA.c1Trace_runOps, by decide⟩

/-- C1 (amended). In every state reachable by the manager's operations in
which every spawn's child process reports a pid — so the synchronous
spawned-notification marking the endpoint runs within the spawn — and
every generated instance id is fresh, at most one live instance holds a
reference to a given endpoint whose `inUse` flag is true, and an
endpoint's `inUse` flag is true exactly when some live instance holds it
as its assigned upstream. -/
theorem c1_exclusive_invariant_amended {entries : List RevA.PoolEntry}
    {ri : Option ℚ} {s : RevA.ManagerState}
    (h : RevA.ReachableBenign entries ri s) : RevA.exclusiveInv s :=
  (RevA.strongInv_reachableBenign h).toExclusiveInv

theorem c1_exclusive_invariant_amended_witness : RevA.exclusiveInv RevA.c1OkState :=
  c1_exclusive_invariant_amended
    (@RevA.ReachableBenign.step RevA.c1Pool none (RevA.initState RevA.c1Pool none)
      RevA.c1OkState (RevA.Op.spawn RevA.c1Config1 none "aaaa" true 0)
      RevA.ReachableBenign.init ⟨rfl, by decide⟩ RevA.c1OkState_step)

instance {α β : Type} [DecidableEq α] [DecidableEq β] : DecidableEq (Except α β) :=
  fun a b =>
    match a, b with
    | .ok x, .ok y =>
        if h : x = y then isTrue (by rw [h])
        else isFalse fun hc => by cases hc; exact h rfl
    | .error x, .error y =>
        if h : x = y then isTrue (by rw [h])
        else isFalse fun hc => by cases hc; exact h rfl
    | .ok _, .error _ => isFalse fun hc => by cases hc
    | .error _, .ok _ => isFalse fun hc => by cases hc

namespace RevB

/-- `ProxyInstance` of the second `proxy.ts` revision: the flag is
`rotating`, set only by `rotateInstance` — `stopInstance` destructures just
the process handle and sets nothing. The `ProxyInstanceConfig` and
`ExternalProxy` interfaces are textually identical to revision A's and are
reused. -/
structure ProxyInstance where
  id : String
  config : RevA.ProxyInstanceConfig
  externalId : String
  rotationTimer : Option ℚ
  rotating : Bool
deriving Repr, DecidableEq

structure ManagerState where
  proxies : List RevA.ExternalProxy
  instances : List ProxyInstance
  retryQueue : List (RevA.ProxyInstanceConfig × ℚ)
  retryInterval : Option ℚ
deriving Repr, DecidableEq

/-- Revision B's `findFreeExternalProxy`: `Array.find` — the *first*
endpoint with `p.id !== excludeId && !p.inUse`, or `undefined`. -/
def findFreeExternalProxy (ps : List RevA.ExternalProxy) (excludeId : Option String) :
    Option RevA.ExternalProxy :=
  ps.find? fun p =>
    (match excludeId with
     | some x => p.id != x
     | none => true) && !p.inUse

def setExternalStatus (s : ManagerState) (id : String) (inUse : Bool) :
    Except String ManagerState :=
  match lookupBy RevA.ExternalProxy.id s.proxies id with
  | none => .error ("ExternalProxy #" ++ id ++ " not found")
  | some _ =>
      .ok { s with proxies := updateBy RevA.ExternalProxy.id s.proxies id
                     fun p => { p with inUse := inUse } }

def onProxySpawned (s : ManagerState) (id : String) : Except String ManagerState :=
  match lookupBy ProxyInstance.id s.instances id with
  | none => .error ("Instance " ++ id ++ " not found")
  | some inst =>
      match setExternalStatus s inst.externalId true with
      | .error e => .error e
      | .ok s1 =>
          if inst.config.rotationTime > 0 then
            .ok { s1 with instances := updateBy ProxyInstance.id s1.instances id
                            fun i => { i with rotationTimer := some inst.config.rotationTime } }
          else .ok s1

def spawnProxy (s : ManagerState) (config : RevA.ProxyInstanceConfig)
    (prevExternalId : Option String) (freshId : String) (pidOk : Bool) :
    Except String ManagerState :=
  match findFreeExternalProxy s.proxies prevExternalId with
  | none => .error "No free external proxy found"
  | some external =>
      let inst : ProxyInstance :=
        { id := freshId, config := config, externalId := external.id
          rotationTimer := none, rotating := false }
      let s1 := { s with instances := upsertBy ProxyInstance.id s.instances inst }
      if pidOk then onProxySpawned s1 freshId else .ok s1

/-- Revision B's `stopInstance({ proxy })`: cancel the worker. It sets no
flag on the manager state — the completion notification arrives later as a
separate event. -/
def stopInstance (s : ManagerState) : ManagerState := s

/-- Revision B's `onProxyStopped`: identical to revision A's except that
the restart gate is the `rotating` flag. -/
def onProxyStopped (s : ManagerState) (id : String) : Except String ManagerState :=
  match lookupBy ProxyInstance.id s.instances id with
  | none => .error ("Instance " ++ id ++ " not found")
  | some inst =>
      match setExternalStatus s inst.externalId false with
      | .error e => .error e
      | .ok s1 =>
          let s2 :=
            if inst.rotating then s1
            else { s1 with retryQueue :=
                     s1.retryQueue ++ [(inst.config, RevA.retryTime s.retryInterval)] }
          .ok { s2 with instances := removeBy ProxyInstance.id s2.instances id }

/-- Revision B's `rotateInstance`: `instance.rotating = true` is executed
*before* the null check, so an unknown id raises a `TypeError` (the
explicit `throw` is dead code); otherwise the flag is set, the worker is
stopped and its completion processed, and the config re-spawned with the
endpoint excluded. -/
def rotateInstance (s : ManagerState) (id : String) (freshId : String) (pidOk : Bool) :
    Except String ManagerState :=
  match lookupBy ProxyInstance.id s.instances id with
  | none => .error ("TypeError: Cannot set property rotating of undefined (instance " ++ id ++ ")")
  | some inst =>
      let s1 := { s with instances := updateBy ProxyInstance.id s.instances id
                           fun i => { i with rotating := true } }
      match onProxyStopped (stopInstance s1) id with
      | .error e => .error e
      | .ok s2 => spawnProxy s2 inst.config (some inst.externalId) freshId pidOk

end RevB


namespace RevA

/-- After `setExternalStatus k b`, every pool entry with id `k` carries
flag `b`. -/
theorem updateBy_inUse_all {ps : List ExternalProxy} {k : String} {b : Bool} :
    ∀ p ∈ updateBy ExternalProxy.id ps k (fun q => { q with inUse := b }),
      p.id = k → p.inUse = b := by
  intro p hp hpk
  obtain ⟨y, hy, rfl⟩ := (mem_updateBy_iff ExternalProxy.id).mp hp
  by_cases hc : (ExternalProxy.id y == k) = true
  · rw [if_pos hc]
  · rw [if_neg hc] at hpk ⊢
    exact absurd hpk (by simpa using hc)

end RevA

namespace RevB

theorem setExternalStatus_okB {s : ManagerState} {k : String} {b : RevA.ExternalProxy}
    {flag : Bool} (hb : lookupBy RevA.ExternalProxy.id s.proxies k = some b) :
    setExternalStatus s k flag = .ok { s with
      proxies := updateBy RevA.ExternalProxy.id s.proxies k
        fun p => { p with inUse := flag } } := by
  unfold setExternalStatus
  rw [hb]

theorem onProxyStopped_okB {s : ManagerState} {id : String} {inst : ProxyInstance}
    {b : RevA.ExternalProxy}
    (hl : lookupBy ProxyInstance.id s.instances id = some inst)
    (hb : lookupBy RevA.ExternalProxy.id s.proxies inst.externalId = some b) :
    onProxyStopped s id = .ok { s with
      proxies := updateBy RevA.ExternalProxy.id s.proxies inst.externalId
        fun p => { p with inUse := false }
      instances := removeBy ProxyInstance.id s.instances id
      retryQueue := if inst.rotating then s.retryQueue
        else s.retryQueue ++ [(inst.config, RevA.retryTime s.retryInterval)] } := by
  unfold onProxyStopped
  simp only [hl, setExternalStatus_okB hb]
  by_cases hrot : inst.rotating = true
  · rw [if_pos hrot, if_pos hrot]
  · rw [if_neg hrot, if_neg hrot]

/-- Concrete material for the stop-gating claim. -/
def c3Cfg : RevA.ProxyInstanceConfig :=
  { user := "carol", password := none, port := [4000], rotationTime := 0,
    disabled := false, ipWhitelist := [] }

def c3Ext : RevA.ExternalProxy :=
  { id := "p1", host := "198.51.100.7", port := "8080", inUse := true, disabled := false }

def c3Inst : ProxyInstance :=
  { id := "cccc", config := c3Cfg, externalId := "p1", rotationTimer := none, rotating := false }

/-- A running revision-B instance about to be stopped by the manager. -/
def c3State : ManagerState :=
  { proxies := [c3Ext], instances := [c3Inst], retryQueue := [], retryInterval := none }

/-- What revision B's completion handler produces after a manager-initiated
stop of `c3Inst`: the endpoint is released and the instance dropped, but a
re-spawn of its config is scheduled after the default 1-second delay. -/
def c3After : ManagerState :=
  { proxies := [{ c3Ext with inUse := false }], instances := [],
    retryQueue := [(c3Cfg, 1)], retryInterval := none }

end RevB

/-- C3. The claim fails on the second `proxy.ts` revision: its
`stopInstance` sets no flag before cancelling the worker (only
`rotateInstance` sets `rotating`), so a completion notification arriving
after a manager-initiated stop still schedules a re-spawn — exhibited on a
concrete one-instance state, where the retry queue ends up non-empty. -/
theorem c3_stop_gating_counterexample :
    RevB.stopInstance RevB.c3State = RevB.c3State ∧
    RevB.onProxyStopped (RevB.stopInstance RevB.c3State) "cccc" = .ok RevB.c3After ∧
    RevB.c3After.retryQueue = [(RevB.c3Cfg, 1)] :=
  ⟨rfl, by decide, by decide⟩

/-- C3 (amended). In the first revision (`stopping` flag): a completion
arriving for an instance that was not being stopped releases its endpoint
and schedules exactly one re-spawn of its config after
`retryInterval || 1` seconds, and a completion arriving after
`stopInstance` (which sets `stopping` before cancelling) schedules no
re-spawn while still releasing the endpoint. In the second revision
(`rotating` flag): only a rotation in flight suppresses the re-spawn; a
completion after a manager-initiated stop still schedules one. The default
delay is 1 second. -/
theorem c3_crash_vs_stop_gating :
    (∀ (s : RevA.ManagerState) (id : String) (inst : RevA.ProxyInstance)
       (b : RevA.ExternalProxy),
      lookupBy RevA.ProxyInstance.id s.instances id = some inst →
      lookupBy RevA.ExternalProxy.id s.proxies inst.externalId = some b →
      inst.stopping = false →
      ∃ s', RevA.onProxyStopped s id = .ok s' ∧
        s'.retryQueue = s.retryQueue ++ [(inst.config, RevA.retryTime s.retryInterval)] ∧
        (∀ p ∈ s'.proxies, p.id = inst.externalId → p.inUse = false) ∧
        lookupBy RevA.ProxyInstance.id s'.instances id = none) ∧
    (∀ (s : RevA.ManagerState) (id : String) (inst : RevA.ProxyInstance)
       (b : RevA.ExternalProxy),
      lookupBy RevA.ProxyInstance.id s.instances id = some inst →
      lookupBy RevA.ExternalProxy.id s.proxies inst.externalId = some b →
      ∃ s', RevA.onProxyStopped (RevA.stopInstance s id) id = .ok s' ∧
        s'.retryQueue = s.retryQueue ∧
        (∀ p ∈ s'.proxies, p.id = inst.externalId → p.inUse = false) ∧
        lookupBy RevA.ProxyInstance.id s'.instances id = none) ∧
    (∀ (s : RevB.ManagerState) (id : String) (inst : RevB.ProxyInstance)
       (b : RevA.ExternalProxy),
      lookupBy RevB.ProxyInstance.id s.instances id = some inst →
      lookupBy RevA.ExternalProxy.id s.proxies inst.externalId = some b →
      inst.rotating = false →
      ∃ s', RevB.onProxyStopped (RevB.stopInstance s) id = .ok s' ∧
        s'.retryQueue = s.retryQueue ++ [(inst.config, RevA.retryTime s.retryInterval)]) ∧
    RevA.retryTime none = 1 := by
  refine ⟨?_, ?_, ?_, rfl⟩
  · intro s id inst b hl hb hstop
    refine ⟨_, RevA.onProxyStopped_ok hl hb, ?_, ?_, ?_⟩
    · rw [if_neg (by rw [hstop]; exact Bool.false_ne_true)]
    · exact fun p hp => RevA.updateBy_inUse_all p hp
    · exact lookupBy_removeBy_self _
  · intro s id inst b hl hb
    have hl' : lookupBy RevA.ProxyInstance.id (RevA.stopInstance s id).instances id =
        some { inst with stopping := true } :=
      lookupBy_updateBy RevA.ProxyInstance.id
        (f := fun i => { i with stopping := true }) (fun x => rfl) hl
    refine ⟨_, RevA.onProxyStopped_ok hl' hb, ?_, ?_, ?_⟩
    · rfl
    · exact fun p hp => RevA.updateBy_inUse_all p hp
    · exact lookupBy_removeBy_self _
  · intro s id inst b hl hb hrot
    refine ⟨_, RevB.onProxyStopped_okB hl hb, ?_⟩
    rw [if_neg (by rw [hrot]; exact Bool.false_ne_true)]
    rfl

namespace RevA

/-- Concrete instantiation material for the gating claim's witness. -/
def c3aCfg : ProxyInstanceConfig :=
  { user := "dave", password := none, port := [4100], rotationTime := 0,
    disabled := false, ipWhitelist := [] }

def c3aExt : ExternalProxy :=
  { id := "q1", host := "203.0.113.9", port := "1080", inUse := true, disabled := false }

def c3aInst : ProxyInstance :=
  { id := "dddd", config := c3aCfg, externalId := "q1", rotationTimer := none, stopping := false }

def c3aState : ManagerState :=
  { proxies := [c3aExt], instances := [c3aInst], retryQueue := [], retryInterval := none }

end RevA

theorem c3_crash_vs_stop_gating_witness :
    (∃ s', RevA.onProxyStopped RevA.c3aState "dddd" = .ok s' ∧
      s'.retryQueue = RevA.c3aState.retryQueue ++
        [(RevA.c3aInst.config, RevA.retryTime RevA.c3aState.retryInterval)] ∧
      (∀ p ∈ s'.proxies, p.id = RevA.c3aInst.externalId → p.inUse = false) ∧
      lookupBy RevA.ProxyInstance.id s'.instances "dddd" = none) ∧
    (∃ s', RevB.onProxyStopped (RevB.stopInstance RevB.c3State) "cccc" = .ok s' ∧
      s'.retryQueue = RevB.c3State.retryQueue ++
        [(RevB.c3Inst.config, RevA.retryTime RevB.c3State.retryInterval)]) :=
  ⟨c3_crash_vs_stop_gating.1 RevA.c3aState "dddd" RevA.c3aInst RevA.c3aExt
      (by decide) (by decide) rfl,
    c3_crash_vs_stop_gating.2.2.1 RevB.c3State "cccc" RevB.c3Inst RevB.c3Ext
      (by decide) (by decide) rfl⟩


namespace RevC

/-- `ExternalProxy` of the earliest revision (the first half of the unnamed
source file): `id` is optional and `port` numeric. -/
structure ExternalProxy where
  id : Option String
  host : String
  port : Nat
  inUse : Bool
  disabled : Bool
deriving Repr, DecidableEq

/-- `ProxyInstanceConfig` of the earliest revision: `port` is a single
number. `rotationTime` is a JS number whose `NaN` value (also produced by
an absent field) is `none`. -/
structure ProxyInstanceConfig where
  user : String
  password : Option String
  port : Nat
  rotationTime : Option ℚ
  disabled : Bool
  ipWhitelist : List String
deriving Repr, DecidableEq

/-- The earliest revision keeps instances in an array; `external` is
cleared and remembered in `lastExternal` when the worker stops. -/
structure ProxyInstance where
  config : ProxyInstanceConfig
  externalId : Option String
  lastExternalId : Option String
  rotationTimer : Option ℚ
deriving Repr, DecidableEq

structure ManagerState where
  proxies : List ExternalProxy
  instances : List ProxyInstance
deriving Repr, DecidableEq

/-- JS strict equality on possibly-undefined strings:
`undefined === undefined` is true. -/
def jsStrictEqOpt : Option String → Option String → Bool
  | none, none => true
  | some a, some b => a == b
  | _, _ => false

/-- `exclude?.id`: `undefined` when `exclude` is absent. -/
def excludedId (exclude : Option ExternalProxy) : Option String :=
  match exclude with
  | none => none
  | some e => e.id

/-- The retry-until-eligible loop body’s rejection test:
`proxy.inUse || proxy.id === exclude?.id`. -/
def loopReject (exclude : Option ExternalProxy) (p : ExternalProxy) : Bool :=
  p.inUse || jsStrictEqOpt p.id (excludedId exclude)

/-- One draw of `randomIndex`: `Math.floor(Math.random() * length)`. The
`while` loop is modelled on the stream of draws it consumes; an index out
of range leaves `proxy` undefined and the loop retries. `none` means the
supplied draws were exhausted without an eligible pick (the source would
keep spinning). -/
def pickLoop (ps : List ExternalProxy) (exclude : Option ExternalProxy) :
    List ℚ → Option ExternalProxy
  | [] => none
  | r :: rest =>
      match ps[((r * (ps.length : ℚ)).floor).toNat]? with
      | none => pickLoop ps exclude rest
      | some p => if loopReject exclude p then pickLoop ps exclude rest else some p

/-- The earliest revision’s `findFreeExternalProxy(exclude?)`: throws
`No external proxy available` when an exclusion is given over a pool of
fewer than two entries, otherwise loops until an eligible endpoint is
drawn. -/
def findFreeExternalProxy (ps : List ExternalProxy) (exclude : Option ExternalProxy)
    (rs : List ℚ) : Except String (Option ExternalProxy) :=
  if exclude.isSome && decide (ps.length < 2) then .error "No external proxy available"
  else .ok (pickLoop ps exclude rs)

/-- The earliest revision’s `onProxySpawned` on its success path (its
error branch is dead code: the sole call site always passes `null` for
`err`): the instance is created, a rotation timer of
`config.rotationTime` seconds is armed whenever `rotationTime` is a
number — `!isNaN(config.rotationTime)` — including zero, and the instance
is pushed onto the table. -/
def onProxySpawned (s : ManagerState) (config : ProxyInstanceConfig)
    (externalId : Option String) : ManagerState :=
  let inst : ProxyInstance :=
    { config := config, externalId := externalId, lastExternalId := none
      rotationTimer := match config.rotationTime with
        | some t => some t
        | none => none }
  { s with instances := s.instances ++ [inst] }

theorem pickLoop_sound {ps : List ExternalProxy} {exclude : Option ExternalProxy}
    {rs : List ℚ} {p : ExternalProxy} (h : pickLoop ps exclude rs = some p) :
    p ∈ ps ∧ p.inUse = false ∧ jsStrictEqOpt p.id (excludedId exclude) = false := by
  induction rs with
  | nil => cases h
  | cons r rest ih =>
      unfold pickLoop at h
      cases hg : ps[((r * (ps.length : ℚ)).floor).toNat]? with
      | none =>
          simp only [hg] at h
          exact ih h
      | some q =>
          simp only [hg] at h
          by_cases hr : loopReject exclude q = true
          · rw [if_pos hr] at h
            exact ih h
          · rw [if_neg hr] at h
            rw [Option.some.injEq] at h
            subst h
            unfold loopReject at hr
            rw [Bool.or_eq_true, not_or] at hr
            exact ⟨List.getElem?_mem hg, by simpa using hr.1, by simpa using hr.2⟩

end RevC

namespace RevB

theorem findFreeExternalProxy_soundB {ps : List RevA.ExternalProxy}
    {ex : Option String} {e : RevA.ExternalProxy}
    (h : findFreeExternalProxy ps ex = some e) :
    e ∈ ps ∧ e.inUse = false ∧ ∀ x, ex = some x → e.id ≠ x := by
  refine ⟨List.mem_of_find?_eq_some h, ?_, ?_⟩
  · have hp := List.find?_some h
    rw [Bool.and_eq_true] at hp
    simpa using hp.2
  · rintro x rfl
    have hp := List.find?_some h
    rw [Bool.and_eq_true] at hp
    simpa using hp.1

end RevB

/-- C5. In all three embedded selection routines a successful acquisition
returns an endpoint that is in the pool, not in use, and not the excluded
one: revision A’s filter-and-round pick, revision B’s first-eligible
scan, and the earliest revision’s retry-until-eligible loop. -/
theorem c5_acquire_postcondition :
    (∀ (ps : List RevA.ExternalProxy) (ex : Option String) (r : ℚ)
       (e : RevA.ExternalProxy),
      RevA.findFreeExternalProxy ps ex r = .ok (some e) →
      e ∈ ps ∧ e.inUse = false ∧ ∀ x, ex = some x → e.id ≠ x) ∧
    (∀ (ps : List RevA.ExternalProxy) (ex : Option String) (e : RevA.ExternalProxy),
      RevB.findFreeExternalProxy ps ex = some e →
      e ∈ ps ∧ e.inUse = false ∧ ∀ x, ex = some x → e.id ≠ x) ∧
    (∀ (ps : List RevC.ExternalProxy) (ex : Option RevC.ExternalProxy)
       (rs : List ℚ) (e : RevC.ExternalProxy),
      RevC.findFreeExternalProxy ps ex rs = .ok (some e) →
      e ∈ ps ∧ e.inUse = false ∧
        RevC.jsStrictEqOpt e.id (RevC.excludedId ex) = false) := by
  refine ⟨fun ps ex r e h => RevA.findFreeExternalProxy_sound h,
    fun ps ex e h => RevB.findFreeExternalProxy_soundB h,
    fun ps ex rs e h => ?_⟩
  unfold RevC.findFreeExternalProxy at h
  split at h
  · cases h
  · rw [Except.ok.injEq] at h
    exact RevC.pickLoop_sound h

namespace RevA

/-- Concrete pool for the acquisition-postcondition witness. -/
def c5Free : ExternalProxy :=
  { id := "r1", host := "192.0.2.4", port := "3129", inUse := false, disabled := false }

def c5Busy : ExternalProxy :=
  { id := "r2", host := "192.0.2.5", port := "3130", inUse := true, disabled := false }

def c5Pool : List ExternalProxy := [c5Busy, c5Free]

theorem c5Pool_find : findFreeExternalProxy c5Pool (some "r0") 0 = .ok (some c5Free) :=
  findFree_singleton_eq (by decide)

end RevA

theorem c5_acquire_postcondition_witness :
    RevA.findFreeExternalProxy RevA.c5Pool (some "r0") 0 = .ok (some RevA.c5Free) ∧
    (RevA.c5Free ∈ RevA.c5Pool ∧ RevA.c5Free.inUse = false ∧
      ∀ x, (some "r0" : Option String) = some x → RevA.c5Free.id ≠ x) :=
  ⟨RevA.c5Pool_find,
    c5_acquire_postcondition.1 RevA.c5Pool (some "r0") 0 RevA.c5Free RevA.c5Pool_find⟩

/-- C7. Unknown-id bookkeeping errors are raised before any mutation: an
unknown endpoint id in `setExternalStatus`, an unknown instance id in the
completion handler or in `rotateInstance`, each produce the thrown error
(in revision B’s `rotateInstance` a `TypeError`, since
`instance.rotating = true` precedes the null check), and an `.error`
result models the exception propagating with the pool and instance table
exactly as they were — each embedded operation checks its id before
touching any state. -/
theorem c7_unknown_id_errors :
    (∀ (s : RevA.ManagerState) (id : String) (b : Bool),
      lookupBy RevA.ExternalProxy.id s.proxies id = none →
      RevA.setExternalStatus s id b = .error ("ExternalProxy #" ++ id ++ " not found")) ∧
    (∀ (s : RevA.ManagerState) (id : String),
      lookupBy RevA.ProxyInstance.id s.instances id = none →
      RevA.onProxyStopped s id = .error ("Instance " ++ id ++ " not found")) ∧
    (∀ (s : RevA.ManagerState) (id freshId : String) (pidOk : Bool) (r : ℚ),
      lookupBy RevA.ProxyInstance.id s.instances id = none →
      RevA.rotateInstance s id freshId pidOk r = .error ("Instance " ++ id ++ " not found")) ∧
    (∀ (s : RevB.ManagerState) (id freshId : String) (pidOk : Bool),
      lookupBy RevB.ProxyInstance.id s.instances id = none →
      RevB.rotateInstance s id freshId pidOk =
        .error ("TypeError: Cannot set property rotating of undefined (instance " ++ id ++ ")")) := by
  refine ⟨?_, ?_, ?_, ?_⟩
  · intro s id b h
    unfold RevA.setExternalStatus
    rw [h]
  · intro s id h
    unfold RevA.onProxyStopped
    rw [h]
  · intro s id freshId pidOk r h
    unfold RevA.rotateInstance
    rw [h]
  · intro s id freshId pidOk h
    unfold RevB.rotateInstance
    rw [h]

namespace RevA

def c7Pool : List ExternalProxy :=
  [{ id := "s1", host := "192.0.2.6", port := "3131", inUse := false, disabled := false }]

def c7State : ManagerState :=
  { proxies := c7Pool, instances := [], retryQueue := [], retryInterval := none }

end RevA

theorem c7_unknown_id_errors_witness :
    RevA.setExternalStatus RevA.c7State "zz" true =
      .error ("ExternalProxy #" ++ "zz" ++ " not found") ∧
    RevA.onProxyStopped RevA.c7State "yy" = .error ("Instance " ++ "yy" ++ " not found") :=
  ⟨c7_unknown_id_errors.1 RevA.c7State "zz" true (by decide),
    c7_unknown_id_errors.2.1 RevA.c7State "yy" (by decide)⟩


namespace RevC

/-- A config whose rotation interval is zero: `isNaN(0)` is false, so the
earliest revision arms a timer for it. -/
def c8Cfg : ProxyInstanceConfig :=
  { user := "frank", password := none, port := 6000, rotationTime := some 0,
    disabled := false, ipWhitelist := [] }

def c8State : ManagerState := { proxies := [], instances := [] }

def c8Inst : ProxyInstance :=
  { config := c8Cfg, externalId := some "t1", lastExternalId := none,
    rotationTimer := some 0 }

end RevC

/-- C8. The claim fails on the earliest revision: its spawned handler arms
the rotation timer under `!isNaN(config.rotationTime)`, so a config with
`rotationTime = 0` gets a timer (an immediate one) even though rotation is
disabled — the armed `rotationTimer` is `some 0`, not `none`. -/
theorem c8_zero_rotation_counterexample :
    (RevC.onProxySpawned RevC.c8State RevC.c8Cfg (some "t1")).instances = [RevC.c8Inst] ∧
    RevC.c8Inst.rotationTimer ≠ none :=
  ⟨rfl, by decide⟩

/-- C8 (amended). In the cited `proxy.ts` revision the spawned handler
arms a rotation timer exactly when `rotationTime > 0`: for
`rotationTime ≤ 0` the instance record is left with its timer unset. In
the earliest revision the handler arms a timer of `rotationTime` seconds
whenever `rotationTime` is a number (`!isNaN`), so zero arms an immediate
timer, and only a `NaN`/absent interval arms none. -/
theorem c8_rotation_timer_arming :
    (∀ (s : RevA.ManagerState) (id : String) (inst : RevA.ProxyInstance)
       (b : RevA.ExternalProxy),
      lookupBy RevA.ProxyInstance.id s.instances id = some inst →
      lookupBy RevA.ExternalProxy.id s.proxies inst.externalId = some b →
      ∃ s', RevA.onProxySpawned s id = .ok s' ∧
        (inst.config.rotationTime > 0 →
          lookupBy RevA.ProxyInstance.id s'.instances id =
            some { inst with rotationTimer := some inst.config.rotationTime }) ∧
        (¬ inst.config.rotationTime > 0 →
          lookupBy RevA.ProxyInstance.id s'.instances id = some inst)) ∧
    (∀ (s : RevC.ManagerState) (c : RevC.ProxyInstanceConfig) (x : Option String),
      (RevC.onProxySpawned s c x).instances = s.instances ++
        [{ config := c, externalId := x, lastExternalId := none,
           rotationTimer := c.rotationTime }]) := by
  constructor
  · intro s id inst b hl hb
    refine ⟨_, RevA.onProxySpawned_ok hl hb, ?_, ?_⟩
    · intro hrt
      show lookupBy RevA.ProxyInstance.id
        (if inst.config.rotationTime > 0 then _ else s.instances) id = _
      rw [if_pos hrt]
      exact lookupBy_updateBy RevA.ProxyInstance.id
        (f := fun i => { i with rotationTimer := some inst.config.rotationTime })
        (fun x => rfl) hl
    · intro hrt
      show lookupBy RevA.ProxyInstance.id
        (if inst.config.rotationTime > 0 then _ else s.instances) id = _
      rw [if_neg hrt]
      exact hl
  · intro s c x
    cases hrt : c.rotationTime with
    | none => simp [RevC.onProxySpawned, hrt]
    | some t => simp [RevC.onProxySpawned, hrt]

namespace RevA

def c8aCfg : ProxyInstanceConfig :=
  { user := "erin", password := none, port := [5000], rotationTime := 0,
    disabled := false, ipWhitelist := [] }

def c8aExt : ExternalProxy :=
  { id := "u1", host := "192.0.2.8", port := "3132", inUse := false, disabled := false }

def c8aInst : ProxyInstance :=
  { id := "eeee", config := c8aCfg, externalId := "u1", rotationTimer := none,
    stopping := false }

def c8aState : ManagerState :=
  { proxies := [c8aExt], instances := [c8aInst], retryQueue := [], retryInterval := none }

end RevA

theorem c8_rotation_timer_arming_witness :
    ∃ s', RevA.onProxySpawned RevA.c8aState "eeee" = .ok s' ∧
      (RevA.c8aInst.config.rotationTime > 0 →
        lookupBy RevA.ProxyInstance.id s'.instances "eeee" =
          some { RevA.c8aInst with rotationTimer := some RevA.c8aInst.config.rotationTime }) ∧
      (¬ RevA.c8aInst.config.rotationTime > 0 →
        lookupBy RevA.ProxyInstance.id s'.instances "eeee" = some RevA.c8aInst) :=
  c8_rotation_timer_arming.1 RevA.c8aState "eeee" RevA.c8aInst RevA.c8aExt
    (by decide) (by decide)


namespace RevA

theorem rotateInstance_eq {s s1 : ManagerState} {id freshId : String}
    {pidOk : Bool} {r : ℚ} {inst : ProxyInstance}
    (hl : lookupBy ProxyInstance.id s.instances id = some inst)
    (hstop : onProxyStopped (stopInstance s id) id = .ok s1) :
    rotateInstance s id freshId pidOk r =
      spawnProxy s1 inst.config (some inst.externalId) freshId pidOk r := by
  unfold rotateInstance
  simp only [hl, hstop]

/-- An endpoint other than the one being written keeps its record through
`setExternalStatus`. -/
theorem mem_updateBy_other {ps : List ExternalProxy} {k : String}
    {f : ExternalProxy → ExternalProxy} {e : ExternalProxy}
    (he : e ∈ ps) (hne : e.id ≠ k) : e ∈ updateBy ExternalProxy.id ps k f := by
  have hmem := @updateBy_mem_of_mem ExternalProxy ExternalProxy.id ps k f e he
  rw [if_neg (by simpa using hne)] at hmem
  exact hmem

end RevA

/-- C4. Rotation round-trip in the cited `proxy.ts` revision: for an
instance holding endpoint `A = inst.externalId`, when some other free
endpoint exists, the awaited stop delivers the completion notification,
which releases `A` (every pool entry with that id has `inUse = false` in
the intermediate state `s1`, before anything is re-acquired), and the
re-spawn — performed with `A` excluded — binds a fresh instance with the
same config to some endpoint `B` with `B.id ≠ A`. -/
theorem c4_rotation_round_trip {s : RevA.ManagerState} {id freshId : String}
    {inst : RevA.ProxyInstance} {b e : RevA.ExternalProxy} {r : ℚ}
    (hl : lookupBy RevA.ProxyInstance.id s.instances id = some inst)
    (hb : lookupBy RevA.ExternalProxy.id s.proxies inst.externalId = some b)
    (he : e ∈ s.proxies) (hefree : e.inUse = false) (hene : e.id ≠ inst.externalId)
    (hfresh : ∀ i ∈ s.instances, i.id ≠ freshId)
    (h0 : 0 ≤ r) (h1 : r < 1) :
    ∃ s1 s' B,
      RevA.onProxyStopped (RevA.stopInstance s id) id = .ok s1 ∧
      (∀ p ∈ s1.proxies, p.id = inst.externalId → p.inUse = false) ∧
      RevA.rotateInstance s id freshId true r = .ok s' ∧
      RevA.spawnProxy s1 inst.config (some inst.externalId) freshId true r = .ok s' ∧
      B ∈ s1.proxies ∧ B.id ≠ inst.externalId ∧
      RevA.spawnedInstance inst.config freshId B.id ∈ s'.instances := by
  have hl' : lookupBy RevA.ProxyInstance.id (RevA.stopInstance s id).instances id =
      some { inst with stopping := true } :=
    lookupBy_updateBy RevA.ProxyInstance.id
      (f := fun i => { i with stopping := true }) (fun x => rfl) hl
  obtain ⟨s1, hstop, hrel, helig, hfresh1⟩ :
      ∃ s1, RevA.onProxyStopped (RevA.stopInstance s id) id = .ok s1 ∧
        (∀ p ∈ s1.proxies, p.id = inst.externalId → p.inUse = false) ∧
        e ∈ RevA.eligibleProxies s1.proxies (some inst.externalId) ∧
        ∀ i ∈ s1.instances, i.id ≠ freshId := by
    refine ⟨_, RevA.onProxyStopped_ok hl' hb,
      fun p hp => RevA.updateBy_inUse_all p hp, ?_, ?_⟩
    · rw [RevA.eligibleProxies, List.mem_filter]
      refine ⟨RevA.mem_updateBy_other he hene, ?_⟩
      rw [Bool.and_eq_true]
      exact ⟨by simpa using hene, by simp [hefree]⟩
    · exact RevA.freshIn_removeBy (RevA.freshIn_updateBy (fun i => rfl) hfresh)
  obtain ⟨B, hBelig, hspawn⟩ :=
    @RevA.spawnProxy_ok_spec s1 inst.config (some inst.externalId) freshId r hfresh1
      (List.ne_nil_of_mem helig) h0 h1
  obtain ⟨hBmem, hBfree, hBex⟩ := RevA.mem_eligible hBelig
  refine ⟨_, _, B, hstop, hrel, ?_, hspawn, hBmem, hBex inst.externalId rfl, ?_⟩
  · rw [RevA.rotateInstance_eq hl hstop]
    exact hspawn
  · exact List.mem_append_right _ (List.mem_singleton_self _)


namespace RevA

/-- Concrete rotation scenario: instance `ffff` holds `v1`; `v2` is free. -/
def c4Cfg : ProxyInstanceConfig :=
  { user := "gina", password := none, port := [7000], rotationTime := 1,
    disabled := false, ipWhitelist := [] }

def c4ExtA : ExternalProxy :=
  { id := "v1", host := "192.0.2.10", port := "3133", inUse := true, disabled := false }

def c4ExtB : ExternalProxy :=
  { id := "v2", host := "192.0.2.11", port := "3134", inUse := false, disabled := false }

def c4Inst : ProxyInstance :=
  { id := "ffff", config := c4Cfg, externalId := "v1", rotationTimer := some 1,
    stopping := false }

def c4State : ManagerState :=
  { proxies := [c4ExtA, c4ExtB], instances := [c4Inst], retryQueue := [],
    retryInterval := none }

end RevA

theorem c4_rotation_round_trip_witness :
    ∃ s1 s' B,
      RevA.onProxyStopped (RevA.stopInstance RevA.c4State "ffff") "ffff" = .ok s1 ∧
      (∀ p ∈ s1.proxies, p.id = RevA.c4Inst.externalId → p.inUse = false) ∧
      RevA.rotateInstance RevA.c4State "ffff" "gggg" true 0 = .ok s' ∧
      RevA.spawnProxy s1 RevA.c4Inst.config (some RevA.c4Inst.externalId) "gggg" true 0 = .ok s' ∧
      B ∈ s1.proxies ∧ B.id ≠ RevA.c4Inst.externalId ∧
      RevA.spawnedInstance RevA.c4Inst.config "gggg" B.id ∈ s'.instances :=
  c4_rotation_round_trip (b := RevA.c4ExtA) (e := RevA.c4ExtB) (by decide) (by decide)
    (by decide) (by decide) (by decide) (by decide) (by decide) (by decide)


namespace RevA

/-- The per-spawn inputs `start` consumes: the 4-byte random id, whether
the child reports a pid, and the `Math.random()` draw of the `k`-th
spawn. -/
structure Supply where
  ids : List String
  pids : List Bool
  rs : List ℚ
deriving Repr

def Supply.idAt (sup : Supply) (k : Nat) : String := sup.ids.getD k ""

def Supply.pidAt (sup : Supply) (k : Nat) : Bool := sup.pids.getD k true

def Supply.rAt (sup : Supply) (k : Nat) : ℚ := sup.rs.getD k 0

/-- The spawn loop of `start`: `spawnProxies` maps every port of every
enabled config to a `spawnProxy` call; a thrown error stops the loop and
propagates, leaving the state mutated so far in place. -/
def spawnSeq (sup : Supply) : ManagerState → List ProxyInstanceConfig → Nat →
    ManagerState × Option String
  | s, [], _ => (s, none)
  | s, c :: rest, k =>
      match spawnProxy s c none (sup.idAt k) (sup.pidAt k) (sup.rAt k) with
      | .error e => (s, some e)
      | .ok s' => spawnSeq sup s' rest (k + 1)

/-- `start`'s iteration flattened: skip disabled configs and expand each
remaining config into one single-port copy per listen port, in order. -/
def expandEnabled (configs : List ProxyInstanceConfig) : List ProxyInstanceConfig :=
  (configs.filter fun c => !c.disabled).flatMap fun c => c.port.map fun p => { c with port := [p] }

/-- `start()`: spawn every enabled, port-expanded config in order; an
uncaught spawn error aborts the loop and escapes, reported here in the
second component. -/
def start (s : ManagerState) (configs : List ProxyInstanceConfig) (sup : Supply) :
    ManagerState × Option String :=
  spawnSeq sup s (expandEnabled configs) 0

/-- The number of endpoints currently free. -/
def countFree (ps : List ExternalProxy) : Nat :=
  (ps.filter fun p => !p.inUse).length

theorem eligible_none (ps : List ExternalProxy) :
    eligibleProxies ps none = ps.filter fun p => !p.inUse := by
  unfold eligibleProxies
  exact List.filter_congr fun p _ => by simp

theorem countFree_update {ps : List ExternalProxy} {e : ExternalProxy}
    (hnodup : ps.Pairwise fun a b => a.id ≠ b.id) (he : e ∈ ps)
    (hfree : e.inUse = false) :
    countFree (updateBy ExternalProxy.id ps e.id fun p => { p with inUse := true }) + 1 =
      countFree ps := by
  induction ps with
  | nil => cases he
  | cons c t ih =>
      rw [List.pairwise_cons] at hnodup
      unfold countFree updateBy at *
      rw [List.map_cons]
      rcases List.mem_cons.mp he with rfl | he'
      · rw [if_pos (by simp)]
        have htail : (t.map fun x =>
            if (ExternalProxy.id x == ExternalProxy.id e) = true then
              { x with inUse := true } else x) = t := by
          have hcongr : ∀ x ∈ t,
              (if (ExternalProxy.id x == ExternalProxy.id e) = true then
                { x with inUse := true } else x) = id x := by
            intro x hx
            rw [if_neg (by simpa using fun hxx => (hnodup.1 x hx) hxx.symm)]
            rfl
          rw [List.map_congr_left hcongr, List.map_id]
        rw [htail, List.filter_cons, List.filter_cons]
        simp [hfree]
      · have hc : ¬ (ExternalProxy.id c == ExternalProxy.id e) = true := by
          simpa using hnodup.1 e he'
        rw [if_neg hc, List.filter_cons, List.filter_cons]
        by_cases hcu : (!c.inUse) = true
        · rw [if_pos hcu, if_pos hcu]
          rw [List.length_cons, List.length_cons]
          rw [← ih hnodup.2 he']
        · rw [if_neg hcu, if_neg hcu]
          exact ih hnodup.2 he'

theorem Supply.idAt_ne {sup : Supply} (hnd : sup.ids.Nodup) {j k : Nat}
    (hj : j < k) (hk : k < sup.ids.length) : sup.idAt j ≠ sup.idAt k := by
  have hj' : j < sup.ids.length := lt_trans hj hk
  unfold Supply.idAt
  rw [List.getD_eq_getElem?_getD, List.getD_eq_getElem?_getD,
    List.getElem?_eq_getElem hj', List.getElem?_eq_getElem hk]
  simp only [Option.getD_some]
  intro heq
  exact Nat.ne_of_lt hj (by
    have := List.Nodup.getElem_inj_iff hnd |>.mp heq
    exact this)

/-- When the supply's ids are duplicate-free, the children all report pids
and the draws all lie in `[0, 1)`, a spawn loop over more configs than
there are free endpoints performs exactly `countFree` successful spawns
and then stops with the exhaustion error, scheduling no retry and keeping
the invariant. -/
theorem spawnSeq_exhausts {sup : Supply}
    (hnd : sup.ids.Nodup)
    (hpid : ∀ b ∈ sup.pids, b = true)
    (hr : ∀ q ∈ sup.rs, 0 ≤ q ∧ q < 1) :
    ∀ (cfgs : List ProxyInstanceConfig) (k : Nat) (s : ManagerState) (m : Nat),
      StrongInv s → s.retryQueue = [] →
      (∀ i ∈ s.instances, ∃ j, j < k ∧ i.id = sup.idAt j) →
      k + cfgs.length ≤ sup.ids.length →
      countFree s.proxies = m → m < cfgs.length →
      ∃ s', spawnSeq sup s cfgs k = (s', some "No free external proxies") ∧
        s'.instances.length = s.instances.length + m ∧
        s'.retryQueue = [] ∧ StrongInv s' := by
  intro cfgs
  induction cfgs with
  | nil => intro k s m _ _ _ _ _ hm; cases hm
  | cons c rest ih =>
      intro k s m hinv hq hids hlen hcount hm
      have hpidk : sup.pidAt k = true := by
        unfold Supply.pidAt
        cases hg : sup.pids.getD k true with
        | true => rfl
        | false =>
            rw [List.getD_eq_getElem?_getD] at hg
            cases hg2 : sup.pids[k]? with
            | none => rw [hg2] at hg; cases hg
            | some b =>
                rw [hg2] at hg
                rw [Option.getD_some] at hg
                subst hg
                exact absurd (hpid _ (List.getElem?_mem hg2)) (by simp)
      have hrk : 0 ≤ sup.rAt k ∧ sup.rAt k < 1 := by
        unfold Supply.rAt
        rw [List.getD_eq_getElem?_getD]
        cases hg2 : sup.rs[k]? with
        | none => exact ⟨le_refl 0, by norm_num⟩
        | some q => exact hr q (List.getElem?_mem hg2)
      cases m with
      | zero =>
          have hnil : eligibleProxies s.proxies none = [] := by
            rw [eligible_none]
            exact List.length_eq_zero.mp hcount
          refine ⟨s, ?_, by omega, hq, hinv⟩
          unfold spawnSeq
          rw [spawnProxy_error_of_exhausted hnil]
      | succ m' =>
          have hfresh : ∀ i ∈ s.instances, i.id ≠ sup.idAt k := by
            intro i hi
            obtain ⟨j, hjk, hji⟩ := hids i hi
            rw [hji]
            exact Supply.idAt_ne hnd hjk (by
              have := hlen
              rw [List.length_cons] at this
              omega)
          have hne : eligibleProxies s.proxies none ≠ [] := by
            rw [eligible_none]
            intro hnil
            rw [countFree, hnil] at hcount
            cases hcount
          obtain ⟨e, helig, hspawn⟩ :=
            @spawnProxy_ok_spec s c none (sup.idAt k) (sup.rAt k) hfresh hne hrk.1 hrk.2
          obtain ⟨hmem, hfree, -⟩ := mem_eligible helig
          have hs1inv := strongInv_spawn_post hinv hmem hfree
            (rfl : (spawnedInstance c (sup.idAt k) e.id).externalId = e.id)
            (fun i hi => hfresh i hi)
          have hcount1 : countFree (updateBy ExternalProxy.id s.proxies e.id
              fun p => { p with inUse := true }) = m' := by
            have hdec := countFree_update hinv.proxyIds hmem hfree
            omega
          have hids1 : ∀ i ∈ s.instances ++ [spawnedInstance c (sup.idAt k) e.id],
              ∃ j, j < k + 1 ∧ i.id = sup.idAt j := by
            intro i hi
            rw [List.mem_append, List.mem_singleton] at hi
            rcases hi with hi | rfl
            · obtain ⟨j, hjk, hji⟩ := hids i hi
              exact ⟨j, by omega, hji⟩
            · exact ⟨k, by omega, rfl⟩
          rw [List.length_cons] at hlen hm
          obtain ⟨s', hseq, hlen', hq', hinv'⟩ :=
            ih (k + 1) _ m' hs1inv hq hids1 (by omega) hcount1 (by omega)
          refine ⟨s', ?_, ?_, hq', hinv'⟩
          · unfold spawnSeq
            rw [hpidk, hspawn]
            exact hseq
          · rw [hlen']
            have : (s.instances ++ [spawnedInstance c (sup.idAt k) e.id]).length =
                s.instances.length + 1 := by
              rw [List.length_append, List.length_singleton]
            rw [show ({ s with
                proxies := updateBy ExternalProxy.id s.proxies e.id
                  fun p => { p with inUse := true }
                instances := s.instances ++ [spawnedInstance c (sup.idAt k) e.id] } :
                ManagerState).instances =
                s.instances ++ [spawnedInstance c (sup.idAt k) e.id] from rfl]
            omega

end RevA


namespace RevA

theorem expandEnabled_eq_self {configs : List ProxyInstanceConfig}
    (h : ∀ c ∈ configs, c.disabled = false ∧ c.port.length = 1) :
    expandEnabled configs = configs := by
  induction configs with
  | nil => rfl
  | cons c rest ih =>
      obtain ⟨hdis, hport⟩ := h c (List.mem_cons_self c rest)
      have hrest : expandEnabled rest = rest :=
        ih fun x hx => h x (List.mem_cons_of_mem c hx)
      obtain ⟨p, hp⟩ : ∃ p, c.port = [p] := List.length_eq_one.mp hport
      unfold expandEnabled at *
      rw [List.filter_cons, if_pos (by rw [hdis]; rfl), List.flatMap_cons, hp,
        List.map_cons, List.map_nil, hrest]
      have hcc : ({ c with port := [p] } : ProxyInstanceConfig) = c := by
        rw [← hp]
      rw [hcc]
      rfl

theorem spawnSeq_cons_ok {sup : Supply} {s s' : ManagerState}
    {rest : List ProxyInstanceConfig} {k : Nat} {c : ProxyInstanceConfig}
    (h : spawnProxy s c none (sup.idAt k) (sup.pidAt k) (sup.rAt k) = .ok s') :
    spawnSeq sup s (c :: rest) k = spawnSeq sup s' rest (k + 1) := by
  conv_lhs => rw [spawnSeq]
  simp only [h]

theorem spawnSeq_cons_err {sup : Supply} {s : ManagerState}
    {rest : List ProxyInstanceConfig} {k : Nat} {c : ProxyInstanceConfig} {msg : String}
    (h : spawnProxy s c none (sup.idAt k) (sup.pidAt k) (sup.rAt k) = .error msg) :
    spawnSeq sup s (c :: rest) k = (s, some msg) := by
  conv_lhs => rw [spawnSeq]
  simp only [h]

theorem loadProxyList_free (entries : List PoolEntry) :
    ∀ e ∈ loadProxyList entries, e.inUse = false :=
  (loadProxyList_aux entries [] List.Pairwise.nil (by intro e he; cases he)).2

/-- Concrete exhaustion scenario: one endpoint, two enabled single-port
configs. -/
def c2Pool : List PoolEntry := [{ id := "w1", host := "192.0.2.12", port := "3135" }]

def c2CfgA : ProxyInstanceConfig :=
  { user := "hana", password := none, port := [8000], rotationTime := 0,
    disabled := false, ipWhitelist := [] }

def c2CfgB : ProxyInstanceConfig :=
  { user := "ivan", password := none, port := [8001], rotationTime := 0,
    disabled := false, ipWhitelist := [] }

def c2Sup : Supply := { ids := ["g1", "g2"], pids := [true, true], rs := [0, 0] }

def c2Free : ExternalProxy :=
  { id := "w1", host := "192.0.2.12", port := "3135", inUse := false, disabled := false }

def c2Used : ExternalProxy :=
  { id := "w1", host := "192.0.2.12", port := "3135", inUse := true, disabled := false }

def c2Inst : ProxyInstance :=
  { id := "g1", config := c2CfgA, externalId := "w1", rotationTimer := none,
    stopping := false }

/-- The state at the moment the uncaught exhaustion error escapes
`start()`: one spawned instance, no scheduled retry. -/
def c2ExhaustState : ManagerState :=
  { proxies := [c2Used], instances := [c2Inst], retryQueue := [], retryInterval := none }

theorem c2Start_eval :
    start (initState c2Pool none) [c2CfgA, c2CfgB] c2Sup =
      (c2ExhaustState, some "No free external proxies") := by
  have h1 : eligibleProxies (initState c2Pool none).proxies none = [c2Free] := by decide
  have hsp1 := @spawnProxy_ok_spec' (initState c2Pool none) c2CfgA none "g1" 0 c2Free
    (by decide) (findFree_singleton_eq h1)
  have hstep1 : spawnProxy (initState c2Pool none) c2CfgA none
      (c2Sup.idAt 0) (c2Sup.pidAt 0) (c2Sup.rAt 0) = .ok c2ExhaustState := by
    rw [show c2Sup.idAt 0 = "g1" from rfl, show c2Sup.pidAt 0 = true from rfl,
      show c2Sup.rAt 0 = (0 : ℚ) from rfl]
    rw [hsp1, Except.ok.injEq]
    rw [show spawnedInstance c2CfgA "g1" c2Free.id = c2Inst from by
      unfold spawnedInstance c2Inst
      rw [if_neg (by decide)]
      rfl]
    rfl
  have h2 : eligibleProxies c2ExhaustState.proxies none = [] := by decide
  have hstep2 : spawnProxy c2ExhaustState c2CfgB none
      (c2Sup.idAt 1) (c2Sup.pidAt 1) (c2Sup.rAt 1) = .error "No free external proxies" :=
    spawnProxy_error_of_exhausted h2
  unfold start
  rw [show expandEnabled [c2CfgA, c2CfgB] = [c2CfgA, c2CfgB] from by decide]
  rw [spawnSeq_cons_ok hstep1, spawnSeq_cons_err hstep2]

end RevA

/-- C2. The claim fails: exhaustion is not retried. On a one-endpoint pool
with two enabled single-port configs, `start()` performs one successful
spawn, then `findFreeExternalProxy` throws `No free external proxies`;
nothing catches it, so the error escapes `start()` (the loop stops) and
the retry queue is empty — the remaining config is not left in a
retry-scheduled state. -/
theorem c2_pool_exhaustion_counterexample :
    RevA.start (RevA.initState RevA.c2Pool none) [RevA.c2CfgA, RevA.c2CfgB] RevA.c2Sup =
      (RevA.c2ExhaustState, some "No free external proxies") ∧
    RevA.c2ExhaustState.instances.length = 1 ∧
    RevA.c2ExhaustState.retryQueue = [] :=
  ⟨RevA.c2Start_eval, rfl, rfl⟩

/-- C2 (amended). When acquisition finds no eligible endpoint,
`findFreeExternalProxy` throws; `spawnProxy` and `start()` do not catch
it, so the error escapes `start()` uncaught and no retry is scheduled.
For every pool of `P` endpoints and every `start()` over `N > P` enabled
single-port configs whose children report pids (with fresh random ids and
in-range random draws), exactly `P` spawns succeed before the throw: the
final state holds `P` live instances, its retry queue is empty, and no
endpoint is marked in-use without a live holder (the exclusive-assignment
invariant holds at the exit state). -/
theorem c2_pool_exhaustion_amended {entries : List RevA.PoolEntry} {ri : Option ℚ}
    {configs : List RevA.ProxyInstanceConfig} {sup : RevA.Supply}
    (hcfg : ∀ c ∈ configs, c.disabled = false ∧ c.port.length = 1)
    (hn : (RevA.loadProxyList entries).length < configs.length)
    (hlen : configs.length ≤ sup.ids.length)
    (hnd : sup.ids.Nodup)
    (hpid : ∀ b ∈ sup.pids, b = true)
    (hr : ∀ q ∈ sup.rs, 0 ≤ q ∧ q < 1) :
    ∃ s', RevA.start (RevA.initState entries ri) configs sup =
        (s', some "No free external proxies") ∧
      s'.instances.length = (RevA.loadProxyList entries).length ∧
      s'.retryQueue = [] ∧ RevA.exclusiveInv s' := by
  have hinit := RevA.strongInv_init entries ri
  have hcount : RevA.countFree (RevA.initState entries ri).proxies =
      (RevA.loadProxyList entries).length := by
    unfold RevA.countFree
    rw [show (RevA.initState entries ri).proxies = RevA.loadProxyList entries from rfl]
    rw [List.filter_eq_self.mpr
      (fun e he => by rw [RevA.loadProxyList_free entries e he]; rfl)]
  unfold RevA.start
  rw [RevA.expandEnabled_eq_self hcfg]
  obtain ⟨s', h1, h2, h3, h4⟩ := RevA.spawnSeq_exhausts hnd hpid hr configs 0
    (RevA.initState entries ri) (RevA.loadProxyList entries).length hinit rfl
    (by intro i hi; cases hi) (by omega) hcount hn
  refine ⟨s', h1, ?_, h3, h4.toExclusiveInv⟩
  rw [show (RevA.initState entries ri).instances = [] from rfl] at h2
  simpa using h2

theorem c2_pool_exhaustion_amended_witness :
    ∃ s', RevA.start (RevA.initState RevA.c2Pool none) [RevA.c2CfgA, RevA.c2CfgB] RevA.c2Sup =
        (s', some "No free external proxies") ∧
      s'.instances.length = (RevA.loadProxyList RevA.c2Pool).length ∧
      s'.retryQueue = [] ∧ RevA.exclusiveInv s' :=
  c2_pool_exhaustion_amended (by decide) (by decide) (by decide) (by decide)
    (by decide) (by decide)


namespace RevA

/-- The selection index is nonnegative for draws in `[0, 1)` over a pool
of at least one eligible endpoint. -/
theorem jsRound_nonneg {n : ℕ} (hn : 1 ≤ n) {r : ℚ} (h0 : 0 ≤ r) :
    0 ≤ jsRound (r * ((n : ℚ) - 1)) := by
  have hn1 : (0 : ℚ) ≤ (n : ℚ) - 1 := by
    have hc : (1 : ℚ) ≤ (n : ℚ) := by exact_mod_cast hn
    linarith
  rw [jsRound_eq, Int.le_floor]
  push_cast
  nlinarith

/-- The exact set of draws on which `Math.round(r * (n - 1))` selects
index `i`, for a pool of `n ≥ 2` eligible endpoints. -/
theorem jsRound_toNat_eq_iff {n i : ℕ} (hn : 2 ≤ n) (hi : i < n) {r : ℚ}
    (h0 : 0 ≤ r) (h1 : r < 1) :
    (jsRound (r * ((n : ℚ) - 1))).toNat = i ↔
      max 0 ((2 * (i : ℚ) - 1) / (2 * ((n : ℚ) - 1))) ≤ r ∧
      r < min 1 ((2 * (i : ℚ) + 1) / (2 * ((n : ℚ) - 1))) := by
  have hn1 : (0 : ℚ) < (n : ℚ) - 1 := by
    have hc : (2 : ℚ) ≤ (n : ℚ) := by exact_mod_cast hn
    linarith
  have hjr0 : 0 ≤ jsRound (r * ((n : ℚ) - 1)) := jsRound_nonneg (by omega) h0
  have htn : (jsRound (r * ((n : ℚ) - 1))).toNat = i ↔
      jsRound (r * ((n : ℚ) - 1)) = (i : ℤ) := by omega
  rw [htn, jsRound_eq, Int.floor_eq_iff, max_le_iff, lt_min_iff]
  constructor
  · rintro ⟨hle, hlt⟩
    refine ⟨⟨h0, ?_⟩, h1, ?_⟩
    · rw [div_le_iff (by linarith)]
      push_cast at hle ⊢
      linarith
    · rw [lt_div_iff (by linarith)]
      push_cast at hlt ⊢
      linarith
  · rintro ⟨⟨-, hlo⟩, -, hhi⟩
    rw [div_le_iff (by linarith)] at hlo
    rw [lt_div_iff (by linarith)] at hhi
    constructor
    · push_cast at hlo ⊢
      linarith
    · push_cast at hhi ⊢
      linarith

/-- The length of index `i`'s draw interval: the first and last eligible
endpoints receive half the weight of the interior ones. -/
theorem selection_weight {n i : ℕ} (hn : 2 ≤ n) (hi : i < n) :
    min 1 ((2 * (i : ℚ) + 1) / (2 * ((n : ℚ) - 1))) -
      max 0 ((2 * (i : ℚ) - 1) / (2 * ((n : ℚ) - 1))) =
    if i = 0 ∨ i = n - 1 then 1 / (2 * ((n : ℚ) - 1)) else 1 / ((n : ℚ) - 1) := by
  have hc : (2 : ℚ) ≤ (n : ℚ) := by exact_mod_cast hn
  have hn1 : (0 : ℚ) < (n : ℚ) - 1 := by linarith
  by_cases h0i : i = 0
  · subst h0i
    rw [if_pos (Or.inl rfl)]
    rw [max_eq_left (by
      rw [div_nonpos_iff]
      right
      constructor
      · norm_num
      · linarith)]
    rw [min_eq_right (by
      rw [div_le_one (by linarith)]
      norm_num
      linarith)]
    norm_num
  · by_cases hlast : i = n - 1
    · rw [if_pos (Or.inr hlast)]
      have hic : (i : ℚ) = (n : ℚ) - 1 := by
        rw [hlast]
        rw [Nat.cast_sub (show 1 ≤ n by omega)]
        norm_num
      rw [hic]
      rw [max_eq_right (by
        rw [le_div_iff (by linarith)]
        have h2 : (1:ℚ) ≤ (n:ℚ) - 1 := by
          have : i ≥ 1 := by omega
          have : (1:ℚ) ≤ (i:ℚ) := by exact_mod_cast this
          linarith [hic]
        nlinarith)]
      rw [min_eq_left (by
        rw [le_div_iff (by linarith)]
        linarith)]
      field_simp
    · rw [if_neg (by push_neg; exact ⟨h0i, hlast⟩)]
      have hge1 : 1 ≤ i := by omega
      have hlt1 : i < n - 1 := by omega
      have hic1 : (1 : ℚ) ≤ (i : ℚ) := by exact_mod_cast hge1
      have hic2 : (i : ℚ) ≤ (n : ℚ) - 2 := by
        have hc : (i : ℕ) ≤ n - 2 := by omega
        have hc2 : ((i : ℕ) : ℚ) ≤ ((n - 2 : ℕ) : ℚ) := by exact_mod_cast hc
        have hn2 : ((n - 2 : ℕ) : ℚ) = (n : ℚ) - 2 := by
          push_cast [Nat.cast_sub (by omega : 2 ≤ n)]
          ring
        linarith [hn2 ▸ hc2]
      rw [max_eq_right (by
        rw [le_div_iff (by linarith)]
        linarith)]
      rw [min_eq_right (by
        rw [div_le_one (by linarith)]
        linarith)]
      rw [div_sub_div_same]
      rw [show (2 * (i:ℚ) + 1 - (2 * (i:ℚ) - 1)) = 2 from by ring]
      rw [show (2 * ((n:ℚ) - 1)) = 2 * ((n:ℚ) - 1) from rfl]
      field_simp

/-- `findFreeExternalProxy` written as indexing the eligible list. -/
theorem findFree_eq_getElem {ps : List ExternalProxy} {ex : Option String} (r : ℚ)
    (hne : eligibleProxies ps ex ≠ []) :
    findFreeExternalProxy ps ex r = .ok
      (eligibleProxies ps ex)[(jsRound
        (r * (((eligibleProxies ps ex).length : ℚ) - 1))).toNat]? := by
  unfold findFreeExternalProxy
  rw [if_neg (by
    intro h
    exact hne (List.length_eq_zero.mp h))]

end RevA


namespace RevA

/-- Three free endpoints for the distribution counterexample. -/
def c6E0 : ExternalProxy :=
  { id := "x0", host := "192.0.2.20", port := "4000", inUse := false, disabled := false }

def c6E1 : ExternalProxy :=
  { id := "x1", host := "192.0.2.21", port := "4001", inUse := false, disabled := false }

def c6E2 : ExternalProxy :=
  { id := "x2", host := "192.0.2.22", port := "4002", inUse := false, disabled := false }

def c6Pool : List ExternalProxy := [c6E0, c6E1, c6E2]

theorem c6_getElem_iff0 : ∀ m : ℕ, (c6Pool[m]? = some c6E0) ↔ m = 0
  | 0 => by decide
  | 1 => by decide
  | 2 => by decide
  | (m + 3) => by simp [c6Pool]

theorem c6_getElem_iff1 : ∀ m : ℕ, (c6Pool[m]? = some c6E1) ↔ m = 1
  | 0 => by decide
  | 1 => by decide
  | 2 => by decide
  | (m + 3) => by simp [c6Pool]

theorem c6_find_iff {r : ℚ} (h0 : 0 ≤ r) (h1 : r < 1) {e : ExternalProxy} {m : ℕ}
    (hm : ∀ k : ℕ, (c6Pool[k]? = some e) ↔ k = m) :
    (findFreeExternalProxy c6Pool none r = .ok (some e)) ↔
      (jsRound (r * (((3 : ℕ) : ℚ) - 1))).toNat = m := by
  rw [findFree_eq_getElem r (by decide), Except.ok.injEq]
  rw [show eligibleProxies c6Pool none = c6Pool from by decide]
  rw [show c6Pool.length = 3 from rfl]
  exact hm _

theorem c6_set0 :
    {r : ℚ | 0 ≤ r ∧ r < 1 ∧ findFreeExternalProxy c6Pool none r = .ok (some c6E0)} =
      Set.Ico (0 : ℚ) (1/4) := by
  ext r
  simp only [Set.mem_setOf_eq, Set.mem_Ico]
  constructor
  · rintro ⟨h0, h1, hf⟩
    rw [c6_find_iff h0 h1 c6_getElem_iff0] at hf
    have hiff := (jsRound_toNat_eq_iff (by norm_num) (by norm_num : 0 < 3) h0 h1).mp hf
    refine ⟨h0, ?_⟩
    have h2 := hiff.2
    rw [lt_min_iff] at h2
    have hval : (2 * ((0 : ℕ) : ℚ) + 1) / (2 * (((3 : ℕ) : ℚ) - 1)) = 1/4 := by norm_num
    rw [hval] at h2
    exact h2.2
  · rintro ⟨h0, hlt⟩
    have h1 : r < 1 := lt_trans hlt (by norm_num)
    refine ⟨h0, h1, ?_⟩
    rw [c6_find_iff h0 h1 c6_getElem_iff0]
    refine (jsRound_toNat_eq_iff (by norm_num) (by norm_num : 0 < 3) h0 h1).mpr ⟨?_, ?_⟩
    · rw [max_le_iff]
      refine ⟨h0, ?_⟩
      rw [div_le_iff (by norm_num)]
      push_cast
      linarith
    · rw [lt_min_iff]
      refine ⟨h1, ?_⟩
      have hval : (2 * ((0 : ℕ) : ℚ) + 1) / (2 * (((3 : ℕ) : ℚ) - 1)) = 1/4 := by norm_num
      rw [hval]
      exact hlt

theorem c6_set1 :
    {r : ℚ | 0 ≤ r ∧ r < 1 ∧ findFreeExternalProxy c6Pool none r = .ok (some c6E1)} =
      Set.Ico (1/4 : ℚ) (3/4) := by
  ext r
  simp only [Set.mem_setOf_eq, Set.mem_Ico]
  have hlo : max 0 ((2 * ((1 : ℕ) : ℚ) - 1) / (2 * (((3 : ℕ) : ℚ) - 1))) = 1/4 := by
    rw [max_eq_right (by norm_num)]
    norm_num
  have hhi : min 1 ((2 * ((1 : ℕ) : ℚ) + 1) / (2 * (((3 : ℕ) : ℚ) - 1))) = 3/4 := by
    rw [min_eq_right (by norm_num)]
    norm_num
  constructor
  · rintro ⟨h0, h1, hf⟩
    rw [c6_find_iff h0 h1 c6_getElem_iff1] at hf
    have hiff := (jsRound_toNat_eq_iff (by norm_num) (by norm_num : 1 < 3) h0 h1).mp hf
    rw [hlo] at hiff
    rw [hhi] at hiff
    exact ⟨hiff.1, hiff.2⟩
  · rintro ⟨hge, hlt⟩
    have h0 : 0 ≤ r := le_trans (by norm_num) hge
    have h1 : r < 1 := lt_trans hlt (by norm_num)
    refine ⟨h0, h1, ?_⟩
    rw [c6_find_iff h0 h1 c6_getElem_iff1]
    refine (jsRound_toNat_eq_iff (by norm_num) (by norm_num : 1 < 3) h0 h1).mpr ?_
    rw [hlo, hhi]
    exact ⟨hge, hlt⟩

end RevA

/-- C6. Selection is not uniform. Over a pool of three free endpoints the
draw sets are intervals of different lengths: the first endpoint is
returned exactly for `r ∈ [0, 1/4)` and the second for `r ∈ [1/4, 3/4)`,
so two eligible endpoints are selected on sets of unequal measure
(`1/4 ≠ 1/2`). -/
theorem c6_uniform_selection_counterexample :
    ({r : ℚ | 0 ≤ r ∧ r < 1 ∧
        RevA.findFreeExternalProxy RevA.c6Pool none r = .ok (some RevA.c6E0)} =
      Set.Ico (0 : ℚ) (1/4)) ∧
    ({r : ℚ | 0 ≤ r ∧ r < 1 ∧
        RevA.findFreeExternalProxy RevA.c6Pool none r = .ok (some RevA.c6E1)} =
      Set.Ico (1/4 : ℚ) (3/4)) ∧
    ((1/4 : ℚ) - 0 ≠ 3/4 - 1/4) :=
  ⟨RevA.c6_set0, RevA.c6_set1, by norm_num⟩

/-- C6 (amended). Acquisition indexes the eligible list by
`Math.round(r * (n - 1))`: for a pool of `n ≥ 2` eligible endpoints and a
draw `r` uniform on `[0, 1)`, eligible endpoint `i` is selected exactly
for `r` in the interval
`[max 0 ((2i-1)/(2(n-1))), min 1 ((2i+1)/(2(n-1))))`, whose length is
`1/(2(n-1))` for the first and last eligible endpoints and `1/(n-1)` for
the interior ones — uniform only when `n ≤ 2`. (The second `proxy.ts`
revision draws nothing at all: `Array.find` returns the first eligible
endpoint deterministically.) -/
theorem c6_selection_distribution :
    (∀ (ps : List RevA.ExternalProxy) (ex : Option String) (r : ℚ),
      RevA.eligibleProxies ps ex ≠ [] →
      RevA.findFreeExternalProxy ps ex r = .ok
        (RevA.eligibleProxies ps ex)[(jsRound
          (r * (((RevA.eligibleProxies ps ex).length : ℚ) - 1))).toNat]?) ∧
    (∀ n i : ℕ, 2 ≤ n → i < n → ∀ r : ℚ, 0 ≤ r → r < 1 →
      ((jsRound (r * ((n : ℚ) - 1))).toNat = i ↔
        max 0 ((2 * (i : ℚ) - 1) / (2 * ((n : ℚ) - 1))) ≤ r ∧
        r < min 1 ((2 * (i : ℚ) + 1) / (2 * ((n : ℚ) - 1))))) ∧
    (∀ n i : ℕ, 2 ≤ n → i < n →
      min 1 ((2 * (i : ℚ) + 1) / (2 * ((n : ℚ) - 1))) -
        max 0 ((2 * (i : ℚ) - 1) / (2 * ((n : ℚ) - 1))) =
      if i = 0 ∨ i = n - 1 then 1 / (2 * ((n : ℚ) - 1)) else 1 / ((n : ℚ) - 1)) :=
  ⟨fun ps ex r h => RevA.findFree_eq_getElem r h,
   fun n i hn hi r h0 h1 => RevA.jsRound_toNat_eq_iff hn hi h0 h1,
   fun n i hn hi => RevA.selection_weight hn hi⟩

theorem c6_selection_distribution_witness :
    (2 ≤ 4 ∧ (1 : ℕ) < 4) ∧
    ((jsRound ((1/2 : ℚ) * (((4 : ℕ) : ℚ) - 1))).toNat = 1 ↔
      max 0 ((2 * ((1 : ℕ) : ℚ) - 1) / (2 * (((4 : ℕ) : ℚ) - 1))) ≤ (1/2 : ℚ) ∧
      (1/2 : ℚ) < min 1 ((2 * ((1 : ℕ) : ℚ) + 1) / (2 * (((4 : ℕ) : ℚ) - 1)))) :=
  ⟨⟨by norm_num, by norm_num⟩,
    c6_selection_distribution.2.1 4 1 (by norm_num) (by norm_num) (1/2)
      (by norm_num) (by norm_num)⟩


namespace RevD

/-- `ProxyType` of the final revision. (`type` is a reserved word in Lean;
the field is embedded as `ptype`.) -/
inductive ProxyType where
  | socks
  | http
deriving Repr, DecidableEq

structure ExternalProxy where
  id : String
  host : String
  port : Nat
  ptype : ProxyType
  inUse : Bool
  disabled : Bool
deriving Repr, DecidableEq

/-- The final revision's config: `expires?: number | string` is embedded
as an optional numeric timestamp (epoch milliseconds); `none` is an absent
field. `maxConn` is optional. -/
structure ProxyInstanceConfig where
  user : String
  password : Option String
  port : List Nat
  rotationTime : ℚ
  disabled : Bool
  ipWhitelist : List String
  maxConn : Option Nat
  expires : Option Int
deriving Repr, DecidableEq

/-- The final revision's instance: `external` is optional — a
`rotationTime ≤ 0` instance never acquires one. -/
structure ProxyInstance where
  id : String
  config : ProxyInstanceConfig
  externalId : Option String
  rotationTimer : Option ℚ
  stopping : Bool
deriving Repr, DecidableEq

structure ManagerState where
  proxies : List ExternalProxy
  instances : List ProxyInstance
  retryQueue : List (ProxyInstanceConfig × ℚ)
  retryInterval : Option ℚ
deriving Repr, DecidableEq

/-- The JS template `${config.port}`: a scalar prints itself, an array
joins with commas. -/
def portString : List Nat → String
  | [p] => toString p
  | ps => String.intercalate "," (ps.map fun p => toString p)

/-- `user-${config.user}-port-${config.port}` — the deterministic instance
id of the final revision. -/
def instanceId (config : ProxyInstanceConfig) : String :=
  "user-" ++ config.user ++ "-port-" ++ portString config.port

def eligibleProxies (ps : List ExternalProxy) (excludeId : Option String) :
    List ExternalProxy :=
  ps.filter fun p =>
    (match excludeId with
     | some x => p.id != x
     | none => true) && !p.inUse

/-- The final revision's `findFreeExternalProxy`: same filter-and-round
pick as revision A. -/
def findFreeExternalProxy (ps : List ExternalProxy) (excludeId : Option String)
    (r : ℚ) : Except String (Option ExternalProxy) :=
  if (eligibleProxies ps excludeId).length = 0 then .error "No free external proxies"
  else .ok (eligibleProxies ps excludeId)[(jsRound
    (r * (((eligibleProxies ps excludeId).length : ℚ) - 1))).toNat]?

def setExternalStatus (s : ManagerState) (id : String) (inUse : Bool) :
    Except String ManagerState :=
  match lookupBy ExternalProxy.id s.proxies id with
  | none => .error ("ExternalProxy #" ++ id ++ " not found")
  | some _ =>
      .ok { s with proxies := updateBy ExternalProxy.id s.proxies id
                     fun p => { p with inUse := inUse } }

/-- The final revision's `onProxySpawned`: an instance without an acquired
endpoint returns early — before any occupancy update and before the timer
would be armed. -/
def onProxySpawned (s : ManagerState) (id : String) : Except String ManagerState :=
  match lookupBy ProxyInstance.id s.instances id with
  | none => .error ("Instance " ++ id ++ " not found")
  | some inst =>
      match inst.externalId with
      | none => .ok s
      | some extId =>
          match setExternalStatus s extId true with
          | .error e => .error e
          | .ok s1 =>
              if inst.config.rotationTime > 0 then
                .ok { s1 with instances := updateBy ProxyInstance.id s1.instances id
                                fun i => { i with rotationTimer := some inst.config.rotationTime } }
              else .ok s1

/-- The final revision's `onProxyStopped` reads `external.id`
unconditionally: for an instance without an endpoint this is a JS
`TypeError`, thrown before the retry gate and before the instance is
dropped from the table. -/
def onProxyStopped (s : ManagerState) (id : String) : Except String ManagerState :=
  match lookupBy ProxyInstance.id s.instances id with
  | none => .error ("Instance " ++ id ++ " not found")
  | some inst =>
      match inst.externalId with
      | none => .error "TypeError: Cannot read properties of undefined (reading 'id')"
      | some extId =>
          match setExternalStatus s extId false with
          | .error e => .error e
          | .ok s1 =>
              let s2 :=
                if inst.stopping then s1
                else { s1 with retryQueue :=
                         s1.retryQueue ++ [(inst.config, RevA.retryTime s.retryInterval)] }
              .ok { s2 with instances := removeBy ProxyInstance.id s2.instances id }

/-- Register the spawned process under the deterministic id and, when it
reports a pid, run the synchronous spawned notification. -/
def registerSpawn (s : ManagerState) (config : ProxyInstanceConfig)
    (extId : Option String) (pidOk : Bool) : Except String ManagerState :=
  let inst : ProxyInstance :=
    { id := instanceId config, config := config, externalId := extId
      rotationTimer := none, stopping := false }
  let s1 := { s with instances := upsertBy ProxyInstance.id s.instances inst }
  if pidOk then onProxySpawned s1 (instanceId config) else .ok s1

/-- The final revision's `spawnProxy`: an endpoint is acquired only when
`rotationTime > 0`; otherwise `external` stays undefined and the worker is
pointed at the whole pool. -/
def spawnProxy (s : ManagerState) (config : ProxyInstanceConfig)
    (prevExternalId : Option String) (pidOk : Bool) (r : ℚ) :
    Except String ManagerState :=
  if config.rotationTime > 0 then
    match findFreeExternalProxy s.proxies prevExternalId r with
    | .error e => .error e
    | .ok none => .error "No free external proxy found"
    | .ok (some external) => registerSpawn s config (some external.id) pidOk
  else registerSpawn s config none pidOk

/-- The upstream list `buildProxyCommand` hands the worker: the acquired
endpoint alone, or — without one — every HTTP endpoint of the pool (with
`--lb-method=hash` load balancing). -/
def commandUpstreams (ps : List ExternalProxy) (external : Option ExternalProxy) :
    List ExternalProxy :=
  match external with
  | some e => [e]
  | none => ps.filter fun p => p.ptype == ProxyType.http

/-- The truthiness-guarded expiry test of `start()`:
`instance.expires && new Date(instance.expires) < new Date()`. A numeric
`expires` of `0` is falsy, so it never counts as expired. -/
def isExpired (c : ProxyInstanceConfig) (now : Int) : Bool :=
  match c.expires with
  | some e => e != 0 && decide (e < now)
  | none => false

/-- `start()`'s iteration flattened: drop disabled and expired configs and
expand each survivor into one single-port copy per listen port. -/
def expandLive (configs : List ProxyInstanceConfig) (now : Int) :
    List ProxyInstanceConfig :=
  (configs.filter fun c => !c.disabled && !isExpired c now).flatMap
    fun c => c.port.map fun p => { c with port := [p] }

def spawnSeq (sup : RevA.Supply) : ManagerState → List ProxyInstanceConfig → Nat →
    ManagerState × Option String
  | s, [], _ => (s, none)
  | s, c :: rest, k =>
      match spawnProxy s c none (sup.pidAt k) (sup.rAt k) with
      | .error e => (s, some e)
      | .ok s' => spawnSeq sup s' rest (k + 1)

/-- The final revision's `start()` with an injected current time. -/
def start (s : ManagerState) (configs : List ProxyInstanceConfig) (now : Int)
    (sup : RevA.Supply) : ManagerState × Option String :=
  spawnSeq sup s (expandLive configs now) 0

/-- "An instance config of `c`": one of the single-port copies `start()`
spawns for `c`. -/
def fromConfig (c ic : ProxyInstanceConfig) : Prop :=
  ∃ p ∈ c.port, ic = { c with port := [p] }

instance (c ic : ProxyInstanceConfig) : Decidable (fromConfig c ic) := by
  unfold fromConfig
  infer_instance

end RevD


namespace RevD

/-- Every instance present after the spawned notification has the config
of an instance already present: the handler only flips occupancy and the
rotation timer. -/
theorem onProxySpawned_configs {s s' : ManagerState} {i : String}
    (h : onProxySpawned s i = .ok s') :
    ∀ x ∈ s'.instances, ∃ j ∈ s.instances, x.config = j.config := by
  unfold onProxySpawned at h
  cases hl : lookupBy ProxyInstance.id s.instances i with
  | none =>
    simp only [hl] at h
    exact Except.noConfusion h
  | some inst =>
    simp only [hl] at h
    cases he : inst.externalId with
    | none =>
      simp only [he] at h
      cases h
      exact fun x hx => ⟨x, hx, rfl⟩
    | some extId =>
      simp only [he] at h
      cases hs : setExternalStatus s extId true with
      | error e =>
        simp only [hs] at h
        exact Except.noConfusion h
      | ok s1 =>
        simp only [hs] at h
        have hs1 : s1.instances = s.instances := by
          unfold setExternalStatus at hs
          cases hl2 : lookupBy ExternalProxy.id s.proxies extId with
          | none =>
            simp only [hl2] at hs
            exact Except.noConfusion hs
          | some p =>
            simp only [hl2] at hs
            cases hs
            rfl
        split at h
        · cases h
          intro x hx
          rw [mem_updateBy_iff] at hx
          obtain ⟨y, hy, hxy⟩ := hx
          rw [hs1] at hy
          refine ⟨y, hy, ?_⟩
          subst hxy
          split
          · rfl
          · rfl
        · cases h
          intro x hx
          rw [hs1] at hx
          exact ⟨x, hx, rfl⟩

/-- Every instance present after registering a spawn either carries the
config of a previously present instance or the spawned config itself. -/
theorem registerSpawn_configs {s s' : ManagerState} {c : ProxyInstanceConfig}
    {extId : Option String} {pidOk : Bool}
    (h : registerSpawn s c extId pidOk = .ok s') :
    ∀ x ∈ s'.instances, (∃ j ∈ s.instances, x.config = j.config) ∨ x.config = c := by
  cases pidOk with
  | false =>
    simp only [registerSpawn, Bool.false_eq_true, if_false] at h
    cases h
    intro x hx
    rcases mem_of_mem_upsertBy ProxyInstance.id hx with hx' | rfl
    · exact Or.inl ⟨x, hx', rfl⟩
    · exact Or.inr rfl
  | true =>
    simp only [registerSpawn, if_true] at h
    intro x hx
    obtain ⟨j, hj, hcfg⟩ := onProxySpawned_configs h x hx
    rcases mem_of_mem_upsertBy ProxyInstance.id hj with hj' | rfl
    · exact Or.inl ⟨j, hj', hcfg⟩
    · exact Or.inr hcfg

/-- Every instance present after a spawn either carries the config of a
previously present instance or the spawned config itself. -/
theorem spawnProxy_configs {s s' : ManagerState} {c : ProxyInstanceConfig}
    {q : Option String} {pidOk : Bool} {r : ℚ}
    (h : spawnProxy s c q pidOk r = .ok s') :
    ∀ x ∈ s'.instances, (∃ j ∈ s.instances, x.config = j.config) ∨ x.config = c := by
  unfold spawnProxy at h
  split at h
  · cases hf : findFreeExternalProxy s.proxies q r with
    | error e =>
      simp only [hf] at h
      exact Except.noConfusion h
    | ok o =>
      cases o with
      | none =>
        simp only [hf] at h
        exact Except.noConfusion h
      | some ext =>
        simp only [hf] at h
        exact registerSpawn_configs h
  · exact registerSpawn_configs h

/-- Every instance present after the spawn loop either carries the config
of an initially present instance or one of the loop's configs. -/
theorem spawnSeq_configs {sup : RevA.Supply} :
    ∀ (cfgs : List ProxyInstanceConfig) (k : Nat) (s : ManagerState)
      (x : ProxyInstance), x ∈ (spawnSeq sup s cfgs k).1.instances →
      (∃ j ∈ s.instances, x.config = j.config) ∨ ∃ c ∈ cfgs, x.config = c := by
  intro cfgs
  induction cfgs with
  | nil =>
    intro k s x hx
    rw [spawnSeq] at hx
    exact Or.inl ⟨x, hx, rfl⟩
  | cons c rest ih =>
    intro k s x hx
    rw [spawnSeq] at hx
    cases hsp : spawnProxy s c none (sup.pidAt k) (sup.rAt k) with
    | error e =>
      simp only [hsp] at hx
      exact Or.inl ⟨x, hx, rfl⟩
    | ok s1 =>
      simp only [hsp] at hx
      rcases ih (k + 1) s1 x hx with ⟨j, hj, hcfg⟩ | ⟨c2, hc2, hcfg⟩
      · rcases spawnProxy_configs hsp j hj with ⟨j2, hj2, hcfg2⟩ | hcfg2
        · exact Or.inl ⟨j2, hj2, hcfg.trans hcfg2⟩
        · exact Or.inr ⟨c, List.mem_cons_self c rest, hcfg.trans hcfg2⟩
      · exact Or.inr ⟨c2, List.mem_cons_of_mem c hc2, hcfg⟩

/-- The configs `start()`'s loop spawns: per-port copies of configs that
are enabled and not (truthily) expired. -/
theorem mem_expandLive {configs : List ProxyInstanceConfig} {now : Int}
    {d : ProxyInstanceConfig} (h : d ∈ expandLive configs now) :
    ∃ c ∈ configs, c.disabled = false ∧ isExpired c now = false ∧
      ∃ p ∈ c.port, d = { c with port := [p] } := by
  unfold expandLive at h
  rw [List.mem_flatMap] at h
  obtain ⟨c, hc, hm⟩ := h
  rw [List.mem_filter] at hc
  obtain ⟨hcmem, hlive⟩ := hc
  simp only [Bool.and_eq_true, Bool.not_eq_true'] at hlive
  rw [List.mem_map] at hm
  obtain ⟨p, hp, hd⟩ := hm
  exact ⟨c, hcmem, hlive.1, hlive.2, p, hp, hd.symm⟩

def c9Cfg : ProxyInstanceConfig := ⟨"eve", none, [9000], 0, false, [], none, some 0⟩

def c9Inst : ProxyInstance := ⟨"user-eve-port-9000", c9Cfg, none, none, false⟩

def c9State : ManagerState := ⟨[], [], [], none⟩

def c9Sup : RevA.Supply := ⟨[], [true], [0]⟩

def c9bExpired : ProxyInstanceConfig := ⟨"eve", none, [9000], 0, false, [], none, some 5⟩

def c9bLive : ProxyInstanceConfig := ⟨"bob", none, [8000], 0, false, [], none, none⟩

def c9bInst : ProxyInstance := ⟨"user-bob-port-8000", c9bLive, none, none, false⟩

def c9bState : ManagerState := ⟨[], [], [], none⟩

def c9bSup : RevA.Supply := ⟨[], [true], [0]⟩

def c10Http : ExternalProxy := ⟨"h1", "10.0.0.1", 3128, ProxyType.http, false, false⟩

def c10Socks : ExternalProxy := ⟨"s1", "10.0.0.2", 1080, ProxyType.socks, false, false⟩

def c10Cfg : ProxyInstanceConfig := ⟨"carol", none, [8100], 0, false, [], none, none⟩

def c10Inst : ProxyInstance := ⟨"user-carol-port-8100", c10Cfg, none, none, false⟩

def c10State : ManagerState := ⟨[c10Http, c10Socks], [], [], none⟩

def c10Spawned : ManagerState := ⟨[c10Http, c10Socks], [c10Inst], [], none⟩

end RevD

/-- **C9** (counterexample). The expiry guard of the final revision's
`start()` is `instance.expires && new Date(instance.expires) < new Date()`:
a numeric expiry of `0` (the epoch) is falsy, so a config expired since
the epoch is spawned anyway. Concretely, at current time `1` the config
with `expires = 0 < 1` still produces a live instance and `start` reports
no error. -/
theorem c9_expiry_filtering_counterexample :
    RevD.c9Cfg.expires = some 0 ∧ (0 : ℤ) < 1 ∧
    (RevD.start RevD.c9State [RevD.c9Cfg] 1 RevD.c9Sup).1.instances = [RevD.c9Inst] ∧
    (RevD.start RevD.c9State [RevD.c9Cfg] 1 RevD.c9Sup).2 = none := by decide

/-- **C9** (amended). For a config whose expiry timestamp is truthy
(nonzero) and earlier than the injected current time, `start()` on a
manager with no live instances never yields an instance spawned from that
config: no per-port copy of it ever appears in the resulting instance
table. -/
theorem c9_expiry_filtering_amended {s : RevD.ManagerState}
    {configs : List RevD.ProxyInstanceConfig} {now : Int} {sup : RevA.Supply}
    (hinit : s.instances = []) (c : RevD.ProxyInstanceConfig)
    {e : Int} (he : c.expires = some e) (hne : e ≠ 0) (hlt : e < now) :
    ∀ i ∈ (RevD.start s configs now sup).1.instances,
      ¬ RevD.fromConfig c i.config := by
  intro i hi hfc
  rcases RevD.spawnSeq_configs (RevD.expandLive configs now) 0 s i hi with
    ⟨j, hj, _⟩ | ⟨d, hd, hcfg⟩
  · rw [hinit] at hj
    exact absurd hj (List.not_mem_nil j)
  · obtain ⟨c2, hc2, hdis, hexp, q, hq, hdeq⟩ := RevD.mem_expandLive hd
    obtain ⟨p, hp, hic⟩ := hfc
    have heq : ({c with port := [p]} : RevD.ProxyInstanceConfig) = {c2 with port := [q]} := by
      rw [← hic, hcfg, hdeq]
    have hexpeq : c.expires = c2.expires := by
      have h2 := congrArg (fun z : RevD.ProxyInstanceConfig => z.expires) heq
      exact h2
    rw [he] at hexpeq
    unfold RevD.isExpired at hexp
    simp only [← hexpeq] at hexp
    have htrue : (e != 0 && decide (e < now)) = true := by
      rw [Bool.and_eq_true, bne_iff_ne, decide_eq_true_eq]
      exact ⟨hne, hlt⟩
    rw [htrue] at hexp
    exact Bool.noConfusion hexp

/-- **C9** (witness). At current time `10`, starting with a config expired
at `5` (truthy) and a live config: the live config's instance is spawned,
and by the amended theorem it is not a copy of the expired config. -/
theorem c9_expiry_filtering_amended_witness :
    RevD.c9bExpired.expires = some 5 ∧ (5 : ℤ) ≠ 0 ∧ (5 : ℤ) < 10 ∧
    RevD.c9bInst ∈
      (RevD.start RevD.c9bState [RevD.c9bExpired, RevD.c9bLive] 10 RevD.c9bSup).1.instances ∧
    ¬ RevD.fromConfig RevD.c9bExpired RevD.c9bInst.config :=
  ⟨rfl, by decide, by decide, by decide,
   @c9_expiry_filtering_amended RevD.c9bState [RevD.c9bExpired, RevD.c9bLive] 10 RevD.c9bSup
     rfl RevD.c9bExpired 5 rfl (by decide) (by decide) RevD.c9bInst (by decide)⟩

/-- **C10.** In the final revision an instance spawned with
`rotationTime = 0` acquires no endpoint (`external` stays undefined, the
worker is pointed at every HTTP endpoint of the pool) and the spawned
notification accepts it without touching occupancy — but the completion
notification does NOT: `onProxyStopped` reads `external.id`
unconditionally and throws a `TypeError` for such an instance, before the
retry gate and before the instance is removed. -/
theorem c10_shared_pool_completion_fault :
    RevD.spawnProxy RevD.c10State RevD.c10Cfg none true 0 = .ok RevD.c10Spawned ∧
    RevD.c10Inst.externalId = none ∧
    RevD.c10Spawned.proxies = RevD.c10State.proxies ∧
    RevD.commandUpstreams RevD.c10State.proxies none = [RevD.c10Http] ∧
    RevD.onProxySpawned RevD.c10Spawned "user-carol-port-8100" = .ok RevD.c10Spawned ∧
    RevD.onProxyStopped RevD.c10Spawned "user-carol-port-8100" =
      .error "TypeError: Cannot read properties of undefined (reading 'id')" := by decide

end ProxyDJ
